import Mathlib

/-!
Verification development for the APEX evaluation pipeline
(`examples/run_with_hf.py`): a shallow embedding of the rubric codec,
generation/grading adapters, row assembler and checkpointed writer,
together with theorems settling the specification claims.

Modelling conventions:
* Python `dict` objects holding JSON data are embedded as ordered
  association structures (`JsonObj`), matching insertion order.
* JSON numbers are modelled as integers (`Int`); floating-point
  literals are outside the model.  The aggregate percentage score is
  likewise carried as an `Int` — the pipeline only passes it through
  verbatim, never computes with it.
* External collaborators (`run_generation_task_async`,
  `run_grading_task_async`, the filesystem) are modelled as explicit
  environment values that either return a result or raise an error
  message.
* Exceptions are modelled with `Except String`.
-/

namespace Apex

-- JSON values, as produced by Python's `json.loads`.  Objects keep
-- insertion order (Python dicts are ordered).  Spine types are mutual
-- so that structural recursion and induction stay simple.
mutual

inductive Json where
  | null : Json
  | bool (b : Bool) : Json
  | int (n : Int) : Json
  | str (s : String) : Json
  | arr (elems : JsonList) : Json
  | obj (entries : JsonObj) : Json

inductive JsonList where
  | nil : JsonList
  | cons (hd : Json) (tl : JsonList) : JsonList

inductive JsonObj where
  | nil : JsonObj
  | cons (key : String) (val : Json) (tl : JsonObj) : JsonObj

end

/-- Lookup in an ordered JSON object: Python `d[k]` / `k in d`. -/
def olookup : JsonObj → String → Option Json
  | .nil, _ => none
  | .cons k v t, key => if k = key then some v else olookup t key

/-- Python dict assignment `d[k] = v`: overwrite in place if the key is
present (keeping its position), otherwise append at the end. -/
def oset : JsonObj → String → Json → JsonObj
  | .nil, key, v => .cons key v .nil
  | .cons k v' t, key, v =>
      if k = key then .cons k v t else .cons k v' (oset t key v)

/-- The ordered key list of a JSON object (Python `list(d.keys())`). -/
def okeys : JsonObj → List String
  | .nil => []
  | .cons k _ t => k :: okeys t

/-- Python truthiness of a JSON value, as used by `bool(x)`. -/
def truthy : Json → Bool
  | .null => false
  | .bool b => b
  | .int n => decide (n ≠ 0)
  | .str s => decide (s ≠ "")
  | .arr .nil => false
  | .arr (.cons _ _) => true
  | .obj .nil => false
  | .obj (.cons _ _ _) => true

/-- `bool(d.get(k))` for a possibly absent value. -/
def pyBool : Option Json → Bool
  | none => false
  | some j => truthy j

/-- Python `isinstance(x, dict)` on a JSON value. -/
def Json.isObj : Json → Bool
  | .obj _ => true
  | _ => false

/-! ### Serialization: `json.dumps(..., ensure_ascii=False)`

Default separators `", "` and `": "`.  With `ensure_ascii=False` only
`"` , `\` and control characters below `0x20` are escaped; the control
characters `\b \f \n \r \t` get their short escapes, the others get
`\u00XX` with lowercase hex digits. -/

/-- Lowercase hexadecimal digit character for a value below 16. -/
def hexDigitCh (d : Nat) : Char :=
  match d with
  | 0 => '0' | 1 => '1' | 2 => '2' | 3 => '3'
  | 4 => '4' | 5 => '5' | 6 => '6' | 7 => '7'
  | 8 => '8' | 9 => '9' | 10 => 'a' | 11 => 'b'
  | 12 => 'c' | 13 => 'd' | 14 => 'e' | _ => 'f'

/-- Escape one character of a JSON string. -/
def escChar (c : Char) : List Char :=
  if c = '\"' then ['\\', '\"']
  else if c = '\\' then ['\\', '\\']
  else if c = Char.ofNat 8 then ['\\', 'b']
  else if c = Char.ofNat 12 then ['\\', 'f']
  else if c = '\n' then ['\\', 'n']
  else if c = '\r' then ['\\', 'r']
  else if c = '\t' then ['\\', 't']
  else if c.toNat < 32 then
    ['\\', 'u', '0', '0', hexDigitCh (c.toNat / 16), hexDigitCh (c.toNat % 16)]
  else [c]

/-- Serialize a string literal with surrounding quotes. -/
def escString (s : String) : List Char :=
  '\"' :: (s.data.flatMap escChar ++ ['\"'])

/-- Decimal digit character. -/
def digitCh (d : Nat) : Char :=
  match d with
  | 0 => '0' | 1 => '1' | 2 => '2' | 3 => '3' | 4 => '4'
  | 5 => '5' | 6 => '6' | 7 => '7' | 8 => '8' | _ => '9'

/-- Decimal digits of a natural number, most significant first;
fuelled so that the kernel can evaluate it. -/
def natCharsAux : Nat → Nat → List Char
  | 0, _ => []
  | fuel + 1, n =>
      if n < 10 then [digitCh n]
      else natCharsAux fuel (n / 10) ++ [digitCh (n % 10)]

/-- Decimal digits of a natural number, most significant first. -/
def natChars (n : Nat) : List Char := natCharsAux (n + 1) n

/-- Python `repr` of an integer. -/
def intChars (n : Int) : List Char :=
  if n < 0 then '-' :: natChars (-n).toNat else natChars n.toNat

mutual

/-- `json.dumps(v, ensure_ascii=False)` on a JSON value, as characters. -/
def dumpsV : Json → List Char
  | .null => "null".data
  | .bool true => "true".data
  | .bool false => "false".data
  | .int n => intChars n
  | .str s => escString s
  | .arr .nil => ['[', ']']
  | .arr (.cons h t) => '[' :: (dumpsV h ++ dumpsElems t ++ [']'])
  | .obj .nil => ['\x7b', '\x7d']
  | .obj (.cons k v t) =>
      '\x7b' :: (escString k ++ ':' :: ' ' :: dumpsV v ++ dumpsFields t ++ ['\x7d'])

/-- Remaining array elements, each preceded by `", "`. -/
def dumpsElems : JsonList → List Char
  | .nil => []
  | .cons h t => ',' :: ' ' :: (dumpsV h ++ dumpsElems t)

/-- Remaining object fields, each preceded by `", "`. -/
def dumpsFields : JsonObj → List Char
  | .nil => []
  | .cons k v t => ',' :: ' ' :: (escString k ++ ':' :: ' ' :: dumpsV v ++ dumpsFields t)

end

/-- `json.dumps(v, ensure_ascii=False)`. -/
def Json.dumps (j : Json) : String := ⟨dumpsV j⟩

/-! ### Parsing: `json.loads`

A recursive-descent parser over the character list, fuelled for
termination.  Divergences from CPython's decoder are confined to
inputs the pipeline never produces: floating-point literals and
exponents are rejected (numbers are modelled as integers), leading
zeros are tolerated, duplicate object keys are kept rather than
collapsed, and `\uXXXX` escapes denoting surrogates decode to `'\0'`
instead of pairing. -/

/-- JSON whitespace. -/
def isWsChar (c : Char) : Bool :=
  c = ' ' || c = '\n' || c = '\t' || c = '\r'

/-- Drop leading JSON whitespace. -/
def skipWs : List Char → List Char
  | [] => []
  | c :: cs => if isWsChar c then skipWs cs else c :: cs

/-- Value of one hexadecimal digit. -/
def hexVal (c : Char) : Option Nat :=
  if c.isDigit then some (c.toNat - 48)
  else if 'a' ≤ c ∧ c ≤ 'f' then some (c.toNat - 87)
  else if 'A' ≤ c ∧ c ≤ 'F' then some (c.toNat - 55)
  else none

/-- Short escape codes in string literals. -/
def escCode : Char → Option Char
  | '\"' => some '\"'
  | '\\' => some '\\'
  | '/' => some '/'
  | 'b' => some (Char.ofNat 8)
  | 'f' => some (Char.ofNat 12)
  | 'n' => some '\n'
  | 'r' => some '\r'
  | 't' => some '\t'
  | _ => none

/-- Parse the body of a string literal (after the opening quote), up to
and including the closing quote.  Raw control characters are rejected
(`strict=True` in Python). -/
def parseStrBody : List Char → Option (List Char × List Char)
  | [] => none
  | c :: rest =>
    if c = '\"' then some ([], rest)
    else if c = '\\' then
      match rest with
      | [] => none
      | e :: rest' =>
        if e = 'u' then
          match rest' with
          | a :: b :: c2 :: d :: rest'' =>
            match hexVal a, hexVal b, hexVal c2, hexVal d with
            | some ha, some hb, some hc, some hd =>
                (parseStrBody rest'').map
                  (fun p => (Char.ofNat (((ha * 16 + hb) * 16 + hc) * 16 + hd) :: p.1, p.2))
            | _, _, _, _ => none
          | _ => none
        else
          match escCode e with
          | some ce => (parseStrBody rest').map (fun p => (ce :: p.1, p.2))
          | none => none
    else if c.toNat < 32 then none
    else (parseStrBody rest).map (fun p => (c :: p.1, p.2))

/-- Split off a leading run of decimal digits. -/
def spanDigits : List Char → List Char × List Char
  | [] => ([], [])
  | c :: cs =>
      if c.isDigit then
        let p := spanDigits cs
        (c :: p.1, p.2)
      else ([], c :: cs)

/-- Numeric value of a digit run. -/
def digitsVal (l : List Char) : Nat :=
  l.foldl (fun a c => a * 10 + (c.toNat - 48)) 0

/-- Match an expected literal character sequence. -/
def expectChars : List Char → List Char → Option (List Char)
  | [], cs => some cs
  | _ :: _, [] => none
  | e :: es, c :: cs => if c = e then expectChars es cs else none

/-- After one array element: expect `]` to close or `,` to continue
(`pe` resumes element parsing). -/
def elemsNext (pe : List Char → Option (JsonList × List Char)) (j : Json)
    (after : List Char) : Option (JsonList × List Char) :=
  match skipWs after with
  | [] => none
  | c :: rest' =>
    if c = ']' then some (.cons j .nil, rest')
    else if c = ',' then (pe rest').map (fun p => (.cons j p.1, p.2))
    else none

/-- After an object value: expect the closing brace or `,` to continue
(`pf` resumes field parsing). -/
def fieldsAfterVal (pf : List Char → Option (JsonObj × List Char)) (kchars : List Char)
    (v : Json) (after : List Char) : Option (JsonObj × List Char) :=
  match skipWs after with
  | [] => none
  | c₃ :: rest₄ =>
    if c₃ = '\x7d' then some (.cons ⟨kchars⟩ v .nil, rest₄)
    else if c₃ = ',' then (pf rest₄).map (fun p => (.cons ⟨kchars⟩ v p.1, p.2))
    else none

/-- After an object key: expect `:` and then the value (`pv` parses the
value, `pf` resumes field parsing). -/
def fieldsAfterKey (pv : List Char → Option (Json × List Char))
    (pf : List Char → Option (JsonObj × List Char)) (kchars : List Char)
    (after : List Char) : Option (JsonObj × List Char) :=
  match skipWs after with
  | [] => none
  | c₂ :: rest₂ =>
    if c₂ = ':' then (pv rest₂).bind (fun p => fieldsAfterVal pf kchars p.1 p.2)
    else none

mutual

/-- Parse one JSON value after skipping leading whitespace. -/
def parseValue : Nat → List Char → Option (Json × List Char)
  | 0, _ => none
  | Nat.succ fuel, cs =>
    match skipWs cs with
    | [] => none
    | c :: rest =>
      if c = 'n' then (expectChars ['u', 'l', 'l'] rest).map (fun r => (Json.null, r))
      else if c = 't' then (expectChars ['r', 'u', 'e'] rest).map (fun r => (Json.bool true, r))
      else if c = 'f' then (expectChars ['a', 'l', 's', 'e'] rest).map (fun r => (Json.bool false, r))
      else if c = '\"' then (parseStrBody rest).map (fun p => (Json.str ⟨p.1⟩, p.2))
      else if c = '-' then
        let p := spanDigits rest
        if p.1 = [] then none else some (Json.int (-(digitsVal p.1 : Int)), p.2)
      else if c.isDigit then
        let p := spanDigits (c :: rest)
        some (Json.int (digitsVal p.1 : Int), p.2)
      else if c = '[' then
        match skipWs rest with
        | [] => none
        | c' :: rest' =>
          if c' = ']' then some (Json.arr .nil, rest')
          else (parseElems fuel (c' :: rest')).map (fun p => (Json.arr p.1, p.2))
      else if c = '\x7b' then
        match skipWs rest with
        | [] => none
        | c' :: rest' =>
          if c' = '\x7d' then some (Json.obj .nil, rest')
          else (parseFields fuel (c' :: rest')).map (fun p => (Json.obj p.1, p.2))
      else none

/-- Parse the elements of a non-empty array, up to and including `]`. -/
def parseElems : Nat → List Char → Option (JsonList × List Char)
  | 0, _ => none
  | Nat.succ fuel, cs =>
      (parseValue fuel cs).bind (fun p => elemsNext (parseElems fuel) p.1 p.2)

/-- Parse the fields of a non-empty object, up to and including the
closing brace. -/
def parseFields : Nat → List Char → Option (JsonObj × List Char)
  | 0, _ => none
  | Nat.succ fuel, cs =>
    match skipWs cs with
    | [] => none
    | c :: rest =>
      if c = '\"' then
        (parseStrBody rest).bind
          (fun p => fieldsAfterKey (parseValue fuel) (parseFields fuel) p.1 p.2)
      else none

end

/-- `json.loads`: one JSON document with optional surrounding
whitespace; trailing data is an error. -/
def Json.parse (s : String) : Option Json :=
  match parseValue (s.data.length + 1) s.data with
  | some (j, rest) => if skipWs rest = [] then some j else none
  | none => none

/-! ### `parse_rubric` (source lines 149–165)

```python
def parse_rubric(rubric_json: str) -> dict:
    if not rubric_json:
        raise ValueError("Empty rubric JSON for grading")
    try:
        data = json.loads(rubric_json)
    except json.JSONDecodeError as e:
        raise ValueError(f"Failed to parse rubric JSON: ...") from e
    if not isinstance(data, dict):
        raise ValueError(f"Rubric JSON is not an object; ...")
    return data
```
-/

/-- `parse_rubric`: the rubric codec's decode operation. -/
def parse_rubric (rubric_json : String) : Except String JsonObj :=
  if rubric_json = "" then .error "Empty rubric JSON for grading"
  else
    match Json.parse rubric_json with
    | none => .error "Failed to parse rubric JSON"
    | some (Json.obj entries) => .ok entries
    | some _ => .error "Rubric JSON is not an object"

/-! ### Configuration (source lines 34–132)

Only the two uncommented model profiles of the source's `MODELS` list
are retained.  The sampling parameters (`temperature`, `top_p`,
`model_configs`) are opaque to every modelled operation — they are
passed unchanged to the external generation collaborator — and are
omitted from the embedding. -/

/-- One entry of the `MODELS` list. -/
structure ModelCfg where
  model_id : String
  max_tokens : Nat
  max_input_tokens : Nat

/-- The configured model profiles (the uncommented entries). -/
def MODELS : List ModelCfg :=
  [⟨"claude-opus-4-5-20251101", 64000, 200000⟩,
   ⟨"gemini-3-pro-preview", 65535, 1048576⟩]

/-- Identifier of the grading model. -/
def GRADING_MODEL : String := "gemini-2.5-flash"

/-- Token budget of the grading model. -/
def GRADING_MAX_TOKENS : Nat := 65535

/-- Number of generation runs per model profile. -/
def NUMBER_OF_RUNS : Nat := 1

/-- `sanitize` (source lines 122–123): successive replacements
`-` → `_`, `.` → `_`, `/` → `_`.  Each replaces every occurrence of a
single character by a single character, so the three passes fuse into
one character map. -/
def sanitize (name : String) : String :=
  ⟨name.data.map (fun c =>
    if c = '-' then '_' else if c = '.' then '_' else if c = '/' then '_' else c)⟩

/-- `get_csv_headers` (source lines 126–132): the base columns followed
by one `(response, score, score_summary)` triad per model and run,
accumulated with `extend` in loop order.  Parameterized by the module
globals `MODELS` and `NUMBER_OF_RUNS`. -/
def get_csv_headers (models : List ModelCfg) (runs : Nat) : List String :=
  models.foldl
    (fun headers m =>
      (List.range runs).foldl
        (fun hs r =>
          hs ++ [sanitize m.model_id ++ "_" ++ toString (r + 1) ++ "_response",
                 sanitize m.model_id ++ "_" ++ toString (r + 1) ++ "_score",
                 sanitize m.model_id ++ "_" ++ toString (r + 1) ++ "_score_summary"])
        headers)
    ["task_id", "domain", "status"]

/-- `format_prompt` (source lines 28–30), with the template file's
content passed explicitly. -/
def format_prompt (tmpl domain task_prompt : String) : String :=
  (tmpl.replace "\x7b\x7bDomain\x7d\x7d" domain).replace "\x7b\x7bPrompt\x7d\x7d" task_prompt

/-- Python `str.strip()` with no argument: remove leading and trailing
whitespace. -/
def pyStrip (s : String) : String :=
  ⟨((s.data.dropWhile Char.isWhitespace).reverse.dropWhile Char.isWhitespace).reverse⟩

/-- An attachment handle (source lines 135–146); created from resolved
file paths.  Resolution itself touches the filesystem and is modelled
as an environment outcome in `TaskEnv.attach`. -/
structure Attachment where
  filename : String
  url : String

/-! ### Generation adapter (source lines 168–187) -/

/-- One element of `result.results` returned by the external
`run_generation_task_async` collaborator: a dict whose fields may be
absent (`.get` with defaults in the source). -/
structure GenResultItem where
  success : Bool
  response : Option String
  error_message : Option String

/-- Behaviour of one invocation of the generation collaborator: it
either raises or returns a result list. -/
inductive GenCollab where
  | raises (msg : String)
  | returns (results : List GenResultItem)

/-- The normalized outcome dict built by `run_generation`.  On the
success path the source dict has no `error` key; `process_task` reads
it with `gen.get('error', '')`, so the absent key is modelled as `""`. -/
structure GenOutcome where
  success : Bool
  response : String
  error : String

/-- `run_generation`: normalizes the collaborator's behaviour into a
uniform success/failure outcome; never raises. -/
def run_generation : GenCollab → GenOutcome
  | .raises e => ⟨false, "", e⟩
  | .returns [] => ⟨false, "", "No results"⟩
  | .returns (r :: _) =>
      if r.success then ⟨true, r.response.getD "", ""⟩
      else ⟨false, "", r.error_message.getD "Unknown"⟩

/-! ### Grading adapter (source lines 190–220) -/

/-- One element of `result.criteria_results`: a dict read with `.get`,
so every field may be absent.  `criterion_key` is compared against the
rubric's string keys (a non-string or absent key never matches, and is
modelled as `none`); `autorating` may be any JSON value and is coerced
with `bool(...)`. -/
structure CriterionResult where
  criterion_key : Option String
  autorating : Option Json
  reason : Option String

/-- The value returned by the external `run_grading_task_async`
collaborator. -/
structure GradingResult where
  criteria_results : List CriterionResult
  percentage_score : Int

/-- Behaviour of one invocation of the grading collaborator. -/
inductive GradCollab where
  | raises (msg : String)
  | returns (result : GradingResult)

/-- The per-criterion injection step of `run_grading` (source lines
213–217): if the returned key exists in the rubric and its value is
itself a dict, set `autorating` and `reason` on that entry; otherwise
leave the rubric untouched. -/
def apply_criterion (rub : JsonObj) (cr : CriterionResult) : JsonObj :=
  match cr.criterion_key with
  | none => rub
  | some key =>
    match olookup rub key with
    | some (Json.obj inner) =>
        oset rub key
          (Json.obj (oset (oset inner "autorating" (Json.bool (pyBool cr.autorating)))
            "reason" (Json.str (cr.reason.getD ""))))
    | _ => rub

/-- `run_grading`: validates the response and rubric, invokes the
grading collaborator, requires at least one per-criterion result,
injects verdicts into the rubric and re-serializes it. -/
def run_grading (response : String) (rubric_json : String) (collab : GradCollab) :
    Except String (Int × String) :=
  if response = "" then .error "Empty model response for grading"
  else
    match parse_rubric rubric_json with
    | .error e => .error e
    | .ok rubric_dict =>
      match collab with
      | .raises e => .error e
      | .returns result =>
        match result.criteria_results with
        | [] => .error "Grading model returned no criteria results"
        | _ =>
          let enriched := result.criteria_results.foldl apply_criterion rubric_dict
          .ok (result.percentage_score, Json.dumps (.obj enriched))

/-! ### Row assembler (source lines 233–284) -/

/-- A CSV cell value: either a string or the integer `0` / a score. -/
inductive Cell where
  | str (s : String) : Cell
  | int (n : Int) : Cell
deriving DecidableEq

/-- A result row: a Python dict from column name to cell, in insertion
order. -/
def Row := List (String × Cell)

/-- Python dict assignment on a row. -/
def rset : Row → String → Cell → Row
  | [], k, v => [(k, v)]
  | (k', v') :: t, k, v =>
      if k' = k then (k, v) :: t else (k', v') :: rset t k v

/-- Python dict lookup on a row (`row.get(k)`). -/
def rget : Row → String → Option Cell
  | [], _ => none
  | (k', v') :: t, k => if k' = k then some v' else rget t k

/-- The `(model_id, run)` pairs visited by the nested loops of
`process_task`, in profile-list order with run index ascending from 1. -/
def pairsOf (models : List ModelCfg) (runs : Nat) : List (String × Nat) :=
  models.flatMap (fun m => (List.range runs).map (fun r => (m.model_id, r + 1)))

/-- The per-pair column prefix `f"{sanitize(model_id)}_{run}"`. -/
def pairPfx (p : String × Nat) : String :=
  sanitize p.1 ++ "_" ++ toString p.2

/-- Environment for one `(model, run)` pair: the behaviour of the
external generation and grading collaborators on that pair's calls. -/
structure PairEnv where
  gen : GenCollab
  grade : GradCollab

/-- The body of the inner loop of `process_task` (source lines
248–277) for one `(model_id, run)` pair. -/
def processOne (pe : PairEnv) (rubric_json : String) (p : String × Nat) (row : Row) : Row :=
  let pfx := pairPfx p
  let gen := run_generation pe.gen
  let row := rset row (pfx ++ "_response") (.str gen.response)
  if gen.success = false then
    rset (rset row (pfx ++ "_score") (.int 0))
      (pfx ++ "_score_summary") (.str ("Generation failed: " ++ gen.error.take 100))
  else if rubric_json ≠ "" ∧ gen.response ≠ "" then
    match run_grading gen.response rubric_json pe.grade with
    | .error _ => row
    | .ok (score, summary) =>
        rset (rset row (pfx ++ "_score") (.int score))
          (pfx ++ "_score_summary") (.str summary)
  else
    rset (rset row (pfx ++ "_score") (.int 0))
      (pfx ++ "_score_summary") (.str "No rubric or empty response")

/-- The nested `for model_cfg in MODELS: for run in range(...)` loops,
threading the flat pair index into the environment. -/
def processPairs (penv : Nat → PairEnv) (rubric_json : String) :
    List (String × Nat) → Nat → Row → Row
  | [], _, row => row
  | p :: rest, i, row =>
      processPairs penv rubric_json rest (i + 1) (processOne (penv i) rubric_json p row)

/-- One input CSV record (`csv.DictReader` row): every field may be
absent, matching the `.get(..., default)` reads in the source. -/
structure TaskData where
  task_id : Option String
  domain : Option String
  task_prompt : Option String
  file_attachments : Option String
  rubric_json : Option String

/-- Environment for one task: the outcome of attachment resolution
(filesystem interaction, which may raise — the only raising step of
the task-level `try` block outside the per-pair isolation) and the
per-pair collaborator behaviours. -/
structure TaskEnv where
  attach : Except String (List Attachment)
  penv : Nat → PairEnv

/-- The initial result row of `process_task` (source line 238):
`{"task_id": ..., "domain": ..., "status": "pending"}`. -/
def initRow (task : TaskData) : Row :=
  [("task_id", Cell.str (task.task_id.getD "unknown")),
   ("domain", Cell.str (task.domain.getD "")),
   ("status", Cell.str "pending")]

/-- `process_task` (source lines 233–284): assemble one result row,
catching any assembly exception into an `error:` status. -/
def process_task (models : List ModelCfg) (runs : Nat) (task : TaskData) (env : TaskEnv) : Row :=
  match env.attach with
  | .error e => rset (initRow task) "status" (Cell.str ("error: " ++ e.take 100))
  | .ok _ =>
    let rubric_json := pyStrip (task.rubric_json.getD "")
    let row := processPairs env.penv rubric_json (pairsOf models runs) 0 (initRow task)
    rset row "status" (Cell.str "completed")

/-! ### Checkpointed writer (source lines 223–230 and 287–327) -/

/-- One row of a pre-existing output CSV, as read back by
`csv.DictReader`.  Only the fields inspected by the source are kept. -/
structure PrevRow where
  task_id : Option String
  status : String

/-- `load_existing_results` (source lines 223–230): the set of task
identifiers present in the output store.  The source builds a dict
`task_id → row` keeping rows with a truthy `task_id`; only `task_id in
existing` is ever consulted, so the embedding keeps the key list
(membership is identical). -/
def load_existing_results (prev : List PrevRow) : List String :=
  prev.filterMap (fun r =>
    match r.task_id with
    | some t => if t = "" then none else some t
    | none => none)

/-- The main loop of `main` (source lines 315–325): skip
previously-recorded tasks when resuming, otherwise assemble the row
and append it immediately.  The returned list is the sequence of rows
appended to the output store, in order. -/
def main_run (models : List ModelCfg) (runs : Nat) (resume : Bool)
    (prev : List PrevRow) (tasks : List (TaskData × TaskEnv)) : List Row :=
  let existing := if resume then load_existing_results prev else []
  tasks.filterMap (fun te =>
    if resume ∧ (te.1.task_id.getD "unknown") ∈ existing then none
    else some (process_task models runs te.1 te.2))

/-! ## Sizes of JSON values (used to discharge parser fuel bounds) -/

mutual

/-- Node-count size of a JSON value. -/
def jsize : Json → Nat
  | .null => 1
  | .bool _ => 1
  | .int _ => 1
  | .str _ => 1
  | .arr l => lsize l + 1
  | .obj o => osize o + 1

/-- Size of an array spine. -/
def lsize : JsonList → Nat
  | .nil => 0
  | .cons h t => jsize h + lsize t + 1

/-- Size of an object spine. -/
def osize : JsonObj → Nat
  | .nil => 0
  | .cons _ v t => jsize v + osize t + 1

end

/-- A list that does not begin with a decimal digit (so a digit run
followed by it parses back exactly). -/
def notDigitStart : List Char → Prop
  | [] => True
  | c :: _ => c.isDigit = false

/-! ## Round-trip lemmas for the JSON codec -/

theorem jsize_pos (j : Json) : 1 ≤ jsize j := by
  cases j <;> simp [jsize]

theorem char_ofNat_toNat (c : Char) (h : c.toNat < 55296) : Char.ofNat c.toNat = c := by
  apply Char.eq_of_val_eq
  have hv : Nat.isValidChar c.toNat := Or.inl h
  simp only [Char.ofNat, hv, dif_pos]
  simp only [Char.ofNatAux]
  apply UInt32.eq_of_toBitVec_eq
  apply BitVec.eq_of_toNat_eq
  rfl

theorem digitCh_isDigit (d : Nat) (h : d < 10) : (digitCh d).isDigit = true := by
  interval_cases d <;> rfl

theorem digitCh_toNat (d : Nat) (h : d < 10) : (digitCh d).toNat = 48 + d := by
  interval_cases d <;> rfl

theorem hexVal_hexDigitCh (d : Nat) (h : d < 16) : hexVal (hexDigitCh d) = some d := by
  interval_cases d <;> rfl

theorem digitsVal_append_one (xs : List Char) (c : Char) :
    digitsVal (xs ++ [c]) = digitsVal xs * 10 + (c.toNat - 48) := by
  simp [digitsVal, List.foldl_append]

theorem natCharsAux_spec (fuel : Nat) : ∀ n, n < fuel →
    (∀ c ∈ natCharsAux fuel n, c.isDigit = true) ∧ natCharsAux fuel n ≠ [] ∧
      digitsVal (natCharsAux fuel n) = n := by
  induction fuel with
  | zero => intro n hn; omega
  | succ fuel ih =>
    intro n hn
    by_cases h10 : n < 10
    · simp only [natCharsAux, if_pos h10]
      refine ⟨?_, by simp, ?_⟩
      · intro c hc
        simp only [List.mem_singleton] at hc
        subst hc
        exact digitCh_isDigit n h10
      · show digitsVal ([] ++ [digitCh n]) = n
        rw [digitsVal_append_one, digitCh_toNat n h10]
        simp [digitsVal]
    · have hdiv : n / 10 < fuel := by
        have h1 : n / 10 < n := Nat.div_lt_self (by omega) (by omega)
        omega
      obtain ⟨ihmem, ihne, ihval⟩ := ih (n / 10) hdiv
      simp only [natCharsAux, if_neg h10]
      refine ⟨?_, by simp, ?_⟩
      · intro c hc
        rcases List.mem_append.mp hc with hc | hc
        · exact ihmem c hc
        · simp only [List.mem_singleton] at hc
          subst hc
          exact digitCh_isDigit _ (Nat.mod_lt _ (by omega))
      · rw [digitsVal_append_one, ihval, digitCh_toNat _ (Nat.mod_lt _ (by omega))]
        omega

theorem natChars_spec (n : Nat) :
    (∀ c ∈ natChars n, c.isDigit = true) ∧ natChars n ≠ [] ∧ digitsVal (natChars n) = n :=
  natCharsAux_spec (n + 1) n (by omega)

theorem spanDigits_append (ds rest : List Char) (hds : ∀ c ∈ ds, c.isDigit = true)
    (hrest : notDigitStart rest) : spanDigits (ds ++ rest) = (ds, rest) := by
  induction ds with
  | nil =>
    cases rest with
    | nil => rfl
    | cons c cs =>
      simp only [notDigitStart] at hrest
      simp [spanDigits, hrest]
  | cons d ds ih =>
    have hd : d.isDigit = true := hds d (by simp)
    have ih' := ih (fun c hc => hds c (by simp [hc]))
    simp [spanDigits, hd, ih']

theorem skipWs_not_ws (c : Char) (cs : List Char) (h : isWsChar c = false) :
    skipWs (c :: cs) = c :: cs := by
  simp [skipWs, h]

theorem skipWs_sp (cs : List Char) : skipWs (' ' :: cs) = skipWs cs := by
  simp [skipWs, isWsChar]

theorem parseValue_sp (fuel : Nat) (cs : List Char) :
    parseValue fuel (' ' :: cs) = parseValue fuel cs := by
  cases fuel with
  | zero => rfl
  | succ fuel => simp only [parseValue, skipWs_sp]

theorem parseElems_sp (fuel : Nat) (cs : List Char) :
    parseElems fuel (' ' :: cs) = parseElems fuel cs := by
  cases fuel with
  | zero => rfl
  | succ fuel => simp only [parseElems, parseValue_sp]

theorem parseFields_sp (fuel : Nat) (cs : List Char) :
    parseFields fuel (' ' :: cs) = parseFields fuel cs := by
  cases fuel with
  | zero => rfl
  | succ fuel => simp only [parseFields, skipWs_sp]

/-- A whitespace character is one of the four JSON whitespace chars. -/
theorem ws_char_cases (c : Char) (h : isWsChar c = true) :
    c = ' ' ∨ c = '\n' ∨ c = '\t' ∨ c = '\r' := by
  simp only [isWsChar, Bool.or_eq_true, decide_eq_true_eq] at h
  tauto

/-- A digit character is none of the parser's special lead characters. -/
theorem digit_char_props (c : Char) (h : c.isDigit = true) :
    isWsChar c = false ∧ c ≠ 'n' ∧ c ≠ 't' ∧ c ≠ 'f' ∧ c ≠ '\"' ∧ c ≠ '-' ∧
      c ≠ ']' ∧ c ≠ '\x7d' ∧ c ≠ ',' ∧ c ≠ '[' ∧ c ≠ '\x7b' := by
  refine ⟨?_, ?_, ?_, ?_, ?_, ?_, ?_, ?_, ?_, ?_, ?_⟩
  · cases heq : isWsChar c
    · rfl
    · exfalso
      rcases ws_char_cases c heq with rfl | rfl | rfl | rfl <;> exact absurd h (by decide)
  all_goals intro hc; subst hc; exact absurd h (by decide)

/-- Step lemma: a closing quote ends the string body. -/
theorem psb_quote (rest : List Char) : parseStrBody ('\"' :: rest) = some ([], rest) := by
  rw [parseStrBody.eq_def]
  rfl

/-- Step lemma: a short escape contributes its decoded character. -/
theorem psb_short (e ce : Char) (rest : List Char) (hu : ¬ e = 'u')
    (he : escCode e = some ce) :
    parseStrBody ('\\' :: e :: rest) = (parseStrBody rest).map (fun p => (ce :: p.1, p.2)) := by
  rw [parseStrBody.eq_def]
  simp only [if_neg (show ¬ ('\\' : Char) = '\"' by decide), if_pos rfl, if_neg hu, he]
  simp

/-- Two-element list append, spelled out for rewriting. -/
theorem cons2_append (a b : Char) (X : List Char) : [a, b] ++ X = a :: b :: X := rfl

/-- Six-element list append, spelled out for rewriting. -/
theorem cons6_append (a b c d e f : Char) (X : List Char) :
    [a, b, c, d, e, f] ++ X = a :: b :: c :: d :: e :: f :: X := rfl

/-- Step lemma: a `\uXXXX` escape contributes the encoded character. -/
theorem psb_u (a b c2 d : Char) (rest : List Char) (ha hb hc hd : Nat)
    (Ha : hexVal a = some ha) (Hb : hexVal b = some hb)
    (Hc : hexVal c2 = some hc) (Hd : hexVal d = some hd) :
    parseStrBody ('\\' :: 'u' :: a :: b :: c2 :: d :: rest) =
      (parseStrBody rest).map
        (fun p => (Char.ofNat (((ha * 16 + hb) * 16 + hc) * 16 + hd) :: p.1, p.2)) := by
  rw [parseStrBody.eq_def]
  simp only [Ha, Hb, Hc, Hd]
  rfl

/-- Step lemma: an unescaped character contributes itself. -/
theorem psb_raw (c : Char) (rest : List Char) (h1 : ¬ c = '\"') (h2 : ¬ c = '\\')
    (h8 : ¬ c.toNat < 32) :
    parseStrBody (c :: rest) = (parseStrBody rest).map (fun p => (c :: p.1, p.2)) := by
  rw [parseStrBody.eq_def]
  simp only [if_neg h1, if_neg h2, if_neg h8]

/-- String-escape round trip: escaping then parsing a string body
returns the original characters. -/
theorem parseStrBody_esc (l : List Char) : ∀ rest : List Char,
    parseStrBody (l.flatMap escChar ++ ('\"' :: rest)) = some (l, rest) := by
  induction l with
  | nil => intro rest; exact psb_quote rest
  | cons c l ih =>
    intro rest
    have hshape : (c :: l).flatMap escChar ++ ('\"' :: rest) =
        escChar c ++ (l.flatMap escChar ++ ('\"' :: rest)) := by
      simp [List.flatMap_cons, List.append_assoc]
    rw [hshape]
    by_cases h1 : c = '\"'
    · subst h1
      rw [show escChar '\"' = ['\\', '\"'] from rfl, cons2_append,
        psb_short '\"' '\"' _ (by decide) rfl, ih rest]
      rfl
    by_cases h2 : c = '\\'
    · subst h2
      rw [show escChar '\\' = ['\\', '\\'] from rfl, cons2_append,
        psb_short '\\' '\\' _ (by decide) rfl, ih rest]
      rfl
    by_cases h3 : c = Char.ofNat 8
    · subst h3
      rw [show escChar (Char.ofNat 8) = ['\\', 'b'] from rfl, cons2_append,
        psb_short 'b' (Char.ofNat 8) _ (by decide) rfl, ih rest]
      rfl
    by_cases h4 : c = Char.ofNat 12
    · subst h4
      rw [show escChar (Char.ofNat 12) = ['\\', 'f'] from rfl, cons2_append,
        psb_short 'f' (Char.ofNat 12) _ (by decide) rfl, ih rest]
      rfl
    by_cases h5 : c = '\n'
    · subst h5
      rw [show escChar '\n' = ['\\', 'n'] from rfl, cons2_append,
        psb_short 'n' '\n' _ (by decide) rfl, ih rest]
      rfl
    by_cases h6 : c = '\r'
    · subst h6
      rw [show escChar '\r' = ['\\', 'r'] from rfl, cons2_append,
        psb_short 'r' '\r' _ (by decide) rfl, ih rest]
      rfl
    by_cases h7 : c = '\t'
    · subst h7
      rw [show escChar '\t' = ['\\', 't'] from rfl, cons2_append,
        psb_short 't' '\t' _ (by decide) rfl, ih rest]
      rfl
    by_cases h8 : c.toNat < 32
    · have hesc : escChar c =
          ['\\', 'u', '0', '0', hexDigitCh (c.toNat / 16), hexDigitCh (c.toNat % 16)] := by
        simp [escChar, h1, h2, h3, h4, h5, h6, h7, h8]
      have hdiv : c.toNat / 16 < 16 := by omega
      have hmod : c.toNat % 16 < 16 := Nat.mod_lt _ (by omega)
      rw [hesc, cons6_append,
        psb_u '0' '0' _ _ _ 0 0 (c.toNat / 16) (c.toNat % 16) (by decide) (by decide)
          (hexVal_hexDigitCh _ hdiv) (hexVal_hexDigitCh _ hmod), ih rest]
      have hval : ((0 * 16 + 0) * 16 + c.toNat / 16) * 16 + c.toNat % 16 = c.toNat := by omega
      rw [hval, char_ofNat_toNat c (by omega)]
      rfl
    · have hesc : escChar c = [c] := by
        simp [escChar, h1, h2, h3, h4, h5, h6, h7, h8]
      rw [hesc, List.singleton_append, psb_raw c _ h1 h2 h8, ih rest]
      rfl

/-- The first character emitted for any JSON value: never whitespace,
never a closing bracket or brace. -/
theorem dumps_head (j : Json) : ∃ c cs, dumpsV j = c :: cs ∧ isWsChar c = false ∧
    ¬ c = ']' ∧ ¬ c = '\x7d' := by
  cases j with
  | null => exact ⟨'n', _, rfl, by decide, by decide, by decide⟩
  | bool b => cases b
               <;> exact ⟨_, _, rfl, by decide, by decide, by decide⟩
  | int n =>
    by_cases hn : n < 0
    · refine ⟨'-', natChars (-n).toNat, ?_, by decide, by decide, by decide⟩
      simp [dumpsV, intChars, hn]
    · obtain ⟨hdig, hne, _⟩ := natChars_spec n.toNat
      obtain ⟨hd, tl, hcs⟩ := List.exists_cons_of_ne_nil hne
      have hhd : hd.isDigit = true := hdig hd (by rw [hcs]; simp)
      obtain ⟨hws, _, _, _, _, _, hne1, hne2, _, _, _⟩ := digit_char_props hd hhd
      refine ⟨hd, tl, ?_, hws, hne1, hne2⟩
      simp [dumpsV, intChars, hn, hcs]
  | str s => exact ⟨'\"', _, rfl, by decide, by decide, by decide⟩
  | arr l => cases l
              <;> exact ⟨'[', _, rfl, by decide, by decide, by decide⟩
  | obj o => cases o
              <;> exact ⟨'\x7b', _, rfl, by decide, by decide, by decide⟩

/-- The serialized tail of array elements followed by `]` never starts
with a digit. -/
theorem elems_notDigitStart (t : JsonList) (rest : List Char) :
    notDigitStart (dumpsElems t ++ (']' :: rest)) := by
  cases t with
  | nil => exact (by decide : (']' : Char).isDigit = false)
  | cons h2 t2 => exact (by decide : (',' : Char).isDigit = false)

/-- The serialized tail of object fields followed by the closing brace
never starts with a digit. -/
theorem fields_notDigitStart (t : JsonObj) (rest : List Char) :
    notDigitStart (dumpsFields t ++ ('\x7d' :: rest)) := by
  cases t with
  | nil => exact (by decide : ('\x7d' : Char).isDigit = false)
  | cons k2 v2 t2 => exact (by decide : (',' : Char).isDigit = false)

mutual

/-- Serialization lower-bounds: a value's node count never exceeds its
serialized length. -/
theorem jsize_le_dumps (j : Json) : jsize j ≤ (dumpsV j).length := by
  cases j with
  | null => decide
  | bool b => cases b <;> simp [jsize, dumpsV]
  | int n =>
    by_cases hn : n < 0
    · have h2 : 0 < (natChars (-n).toNat).length :=
        List.length_pos.mpr (natChars_spec (-n).toNat).2.1
      simp [jsize, dumpsV, intChars, hn]
    · have h1 : 0 < (natChars n.toNat).length :=
        List.length_pos.mpr (natChars_spec n.toNat).2.1
      simp [jsize, dumpsV, intChars, hn]
      omega
  | str s => simp [jsize, dumpsV, escString]
  | arr l =>
    cases l with
    | nil => simp [jsize, lsize, dumpsV]
    | cons h t =>
      have ih1 := jsize_le_dumps h
      have ih2 := lsize_le_dumps t
      simp [jsize, lsize, dumpsV]
      omega
  | obj o =>
    cases o with
    | nil => simp [jsize, osize, dumpsV]
    | cons k v t =>
      have ih1 := jsize_le_dumps v
      have ih2 := osize_le_dumps t
      simp [jsize, osize, dumpsV, escString]
      omega

/-- Spine size bound for array elements. -/
theorem lsize_le_dumps (l : JsonList) : lsize l ≤ (dumpsElems l).length := by
  cases l with
  | nil => simp [lsize, dumpsElems]
  | cons h t =>
    have ih1 := jsize_le_dumps h
    have ih2 := lsize_le_dumps t
    simp [lsize, dumpsElems]
    omega

/-- Spine size bound for object fields. -/
theorem osize_le_dumps (o : JsonObj) : osize o ≤ (dumpsFields o).length := by
  cases o with
  | nil => simp [osize, dumpsFields]
  | cons k v t =>
    have ih1 := jsize_le_dumps v
    have ih2 := osize_le_dumps t
    simp [osize, dumpsFields, escString]
    omega

end

mutual

/-- JSON round trip, value level: parsing a serialized value followed by
any non-digit-leading tail returns the value and the tail. -/
theorem parse_dumpsV : ∀ (j : Json) (fuel : Nat) (rest : List Char), jsize j ≤ fuel →
    notDigitStart rest → parseValue fuel (dumpsV j ++ rest) = some (j, rest)
  | Json.null, fuel, rest, hfuel, hrest => by
    obtain ⟨f, rfl⟩ : ∃ f, fuel = f + 1 :=
      ⟨fuel - 1, by have := jsize_pos Json.null; omega⟩
    rw [show dumpsV Json.null ++ rest = 'n' :: 'u' :: 'l' :: 'l' :: rest from rfl,
      parseValue.eq_2, skipWs_not_ws _ _ (by decide)]
    rfl
  | Json.bool true, fuel, rest, hfuel, hrest => by
    obtain ⟨f, rfl⟩ : ∃ f, fuel = f + 1 :=
      ⟨fuel - 1, by have := jsize_pos (Json.bool true); omega⟩
    rw [show dumpsV (Json.bool true) ++ rest = 't' :: 'r' :: 'u' :: 'e' :: rest from rfl,
      parseValue.eq_2, skipWs_not_ws _ _ (by decide)]
    rfl
  | Json.bool false, fuel, rest, hfuel, hrest => by
    obtain ⟨f, rfl⟩ : ∃ f, fuel = f + 1 :=
      ⟨fuel - 1, by have := jsize_pos (Json.bool false); omega⟩
    rw [show dumpsV (Json.bool false) ++ rest = 'f' :: 'a' :: 'l' :: 's' :: 'e' :: rest from rfl,
      parseValue.eq_2, skipWs_not_ws _ _ (by decide)]
    rfl
  | Json.int n, fuel, rest, hfuel, hrest => by
    obtain ⟨f, rfl⟩ : ∃ f, fuel = f + 1 :=
      ⟨fuel - 1, by have := jsize_pos (Json.int n); omega⟩
    by_cases hn : n < 0
    · obtain ⟨hdig, hne, hval⟩ := natChars_spec (-n).toNat
      rw [show dumpsV (Json.int n) = intChars n from rfl,
        show intChars n = '-' :: natChars (-n).toNat from by simp [intChars, hn],
        List.cons_append, parseValue.eq_2, skipWs_not_ws _ _ (by decide)]
      simp only [if_neg (show ¬ ('-' : Char) = 'n' by decide),
        if_neg (show ¬ ('-' : Char) = 't' by decide),
        if_neg (show ¬ ('-' : Char) = 'f' by decide),
        if_neg (show ¬ ('-' : Char) = '\"' by decide),
        if_pos (rfl : ('-' : Char) = '-')]
      rw [spanDigits_append _ _ hdig hrest]
      simp only [if_neg hne, hval]
      have hcast : (-(((-n).toNat : Int))) = n := by omega
      rw [hcast, if_pos trivial]
    · obtain ⟨hdig, hne, hval⟩ := natChars_spec n.toNat
      obtain ⟨hd, tl, hcs⟩ := List.exists_cons_of_ne_nil hne
      have hhd : hd.isDigit = true := hdig hd (by rw [hcs]; simp)
      obtain ⟨hws, hn1, hn2, hn3, hn4, hn5, _, _, _, _, _⟩ := digit_char_props hd hhd
      rw [show dumpsV (Json.int n) = intChars n from rfl,
        show intChars n = natChars n.toNat from by simp [intChars, hn], hcs,
        List.cons_append, parseValue.eq_2, skipWs_not_ws _ _ hws]
      simp only [if_neg hn1, if_neg hn2, if_neg hn3, if_neg hn4, if_neg hn5, if_pos hhd]
      rw [← List.cons_append, ← hcs, spanDigits_append _ _ hdig hrest]
      simp only [hval]
      have hcast : ((n.toNat : Int)) = n := by omega
      rw [hcast]
  | Json.str s, fuel, rest, hfuel, hrest => by
    obtain ⟨f, rfl⟩ : ∃ f, fuel = f + 1 :=
      ⟨fuel - 1, by have := jsize_pos (Json.str s); omega⟩
    rw [show dumpsV (Json.str s) ++ rest = '\"' :: (s.data.flatMap escChar ++ ('\"' :: rest)) from
        by simp [dumpsV, escString, List.append_assoc],
      parseValue.eq_2, skipWs_not_ws _ _ (by decide)]
    simp only [if_neg (show ¬ ('\"' : Char) = 'n' by decide),
      if_neg (show ¬ ('\"' : Char) = 't' by decide),
      if_neg (show ¬ ('\"' : Char) = 'f' by decide),
      if_pos (rfl : ('\"' : Char) = '\"')]
    rw [parseStrBody_esc s.data rest]
    rfl
  | Json.arr JsonList.nil, fuel, rest, hfuel, hrest => by
    obtain ⟨f, rfl⟩ : ∃ f, fuel = f + 1 :=
      ⟨fuel - 1, by have := jsize_pos (Json.arr JsonList.nil); omega⟩
    rw [show dumpsV (Json.arr JsonList.nil) ++ rest = '[' :: ']' :: rest from rfl,
      parseValue.eq_2, skipWs_not_ws _ _ (by decide)]
    simp only [if_neg (show ¬ ('[' : Char) = 'n' by decide),
      if_neg (show ¬ ('[' : Char) = 't' by decide),
      if_neg (show ¬ ('[' : Char) = 'f' by decide),
      if_neg (show ¬ ('[' : Char) = '\"' by decide),
      if_neg (show ¬ ('[' : Char) = '-' by decide),
      if_neg (show ¬ ('[' : Char).isDigit = true by decide),
      if_pos (rfl : ('[' : Char) = '[')]
    rw [skipWs_not_ws _ _ (by decide)]
    rfl
  | Json.arr (JsonList.cons h t), fuel, rest, hfuel, hrest => by
    obtain ⟨f, rfl⟩ : ∃ f, fuel = f + 1 :=
      ⟨fuel - 1, by have := jsize_pos (Json.arr (JsonList.cons h t)); omega⟩
    obtain ⟨c, cs, hcs, hws, hne1, _⟩ := dumps_head h
    rw [show dumpsV (Json.arr (JsonList.cons h t)) ++ rest =
        '[' :: (dumpsV h ++ (dumpsElems t ++ (']' :: rest))) from
        by simp [dumpsV, List.append_assoc],
      parseValue.eq_2, skipWs_not_ws _ _ (by decide)]
    simp only [if_neg (show ¬ ('[' : Char) = 'n' by decide),
      if_neg (show ¬ ('[' : Char) = 't' by decide),
      if_neg (show ¬ ('[' : Char) = 'f' by decide),
      if_neg (show ¬ ('[' : Char) = '\"' by decide),
      if_neg (show ¬ ('[' : Char) = '-' by decide),
      if_neg (show ¬ ('[' : Char).isDigit = true by decide),
      if_pos (rfl : ('[' : Char) = '[')]
    rw [hcs, List.cons_append, skipWs_not_ws _ _ hws]
    simp only [if_neg hne1]
    rw [← List.cons_append, ← hcs,
      parse_dumpsElems h t f rest (by simp [jsize, lsize] at hfuel; omega)]
    rfl
  | Json.obj JsonObj.nil, fuel, rest, hfuel, hrest => by
    obtain ⟨f, rfl⟩ : ∃ f, fuel = f + 1 :=
      ⟨fuel - 1, by have := jsize_pos (Json.obj JsonObj.nil); omega⟩
    rw [show dumpsV (Json.obj JsonObj.nil) ++ rest = '\x7b' :: '\x7d' :: rest from rfl,
      parseValue.eq_2, skipWs_not_ws _ _ (by decide)]
    simp only [if_neg (show ¬ ('\x7b' : Char) = 'n' by decide),
      if_neg (show ¬ ('\x7b' : Char) = 't' by decide),
      if_neg (show ¬ ('\x7b' : Char) = 'f' by decide),
      if_neg (show ¬ ('\x7b' : Char) = '\"' by decide),
      if_neg (show ¬ ('\x7b' : Char) = '-' by decide),
      if_neg (show ¬ ('\x7b' : Char).isDigit = true by decide),
      if_neg (show ¬ ('\x7b' : Char) = '[' by decide),
      if_pos (rfl : ('\x7b' : Char) = '\x7b')]
    rw [skipWs_not_ws _ _ (by decide)]
    rfl
  | Json.obj (JsonObj.cons k v t), fuel, rest, hfuel, hrest => by
    obtain ⟨f, rfl⟩ : ∃ f, fuel = f + 1 :=
      ⟨fuel - 1, by have := jsize_pos (Json.obj (JsonObj.cons k v t)); omega⟩
    rw [show dumpsV (Json.obj (JsonObj.cons k v t)) ++ rest =
        '\x7b' :: ('\"' :: (k.data.flatMap escChar ++
          ('\"' :: (':' :: ' ' :: (dumpsV v ++ (dumpsFields t ++ ('\x7d' :: rest))))))) from
        by simp [dumpsV, escString, List.append_assoc],
      parseValue.eq_2, skipWs_not_ws _ _ (by decide)]
    simp only [if_neg (show ¬ ('\x7b' : Char) = 'n' by decide),
      if_neg (show ¬ ('\x7b' : Char) = 't' by decide),
      if_neg (show ¬ ('\x7b' : Char) = 'f' by decide),
      if_neg (show ¬ ('\x7b' : Char) = '\"' by decide),
      if_neg (show ¬ ('\x7b' : Char) = '-' by decide),
      if_neg (show ¬ ('\x7b' : Char).isDigit = true by decide),
      if_neg (show ¬ ('\x7b' : Char) = '[' by decide),
      if_pos (rfl : ('\x7b' : Char) = '\x7b')]
    rw [skipWs_not_ws _ _ (by decide)]
    simp only [if_neg (show ¬ ('\"' : Char) = '\x7d' by decide)]
    rw [parse_dumpsFields k v t f rest (by simp [jsize, osize] at hfuel; omega)]
    rfl
termination_by j _ _ => jsize j
decreasing_by all_goals simp [jsize, lsize, osize]

/-- JSON round trip, array-element level. -/
theorem parse_dumpsElems : ∀ (h : Json) (t : JsonList) (fuel : Nat) (rest : List Char),
    jsize h + lsize t + 1 ≤ fuel →
    parseElems fuel (dumpsV h ++ (dumpsElems t ++ (']' :: rest))) =
      some (JsonList.cons h t, rest)
  | h, JsonList.nil, fuel, rest, hfuel => by
    obtain ⟨f, rfl⟩ : ∃ f, fuel = f + 1 := ⟨fuel - 1, by omega⟩
    rw [parseElems.eq_2,
      parse_dumpsV h f (dumpsElems JsonList.nil ++ (']' :: rest))
        (by have := jsize_pos h; omega) (elems_notDigitStart JsonList.nil rest),
      Option.some_bind]
    rw [show dumpsElems JsonList.nil ++ (']' :: rest) = ']' :: rest from rfl]
    simp only [elemsNext]
    rw [skipWs_not_ws _ _ (by decide)]
    rfl
  | h, JsonList.cons h2 t2, fuel, rest, hfuel => by
    obtain ⟨f, rfl⟩ : ∃ f, fuel = f + 1 := ⟨fuel - 1, by omega⟩
    rw [parseElems.eq_2,
      parse_dumpsV h f (dumpsElems (JsonList.cons h2 t2) ++ (']' :: rest))
        (by have := jsize_pos h; simp [lsize] at hfuel; omega)
        (elems_notDigitStart (JsonList.cons h2 t2) rest),
      Option.some_bind]
    rw [show dumpsElems (JsonList.cons h2 t2) ++ (']' :: rest) =
        ',' :: ' ' :: (dumpsV h2 ++ (dumpsElems t2 ++ (']' :: rest))) from
        by simp [dumpsElems, List.append_assoc]]
    simp only [elemsNext]
    rw [skipWs_not_ws _ _ (by decide)]
    simp only [if_neg (show ¬ (',' : Char) = ']' by decide),
      if_pos (rfl : (',' : Char) = ',')]
    rw [parseElems_sp,
      parse_dumpsElems h2 t2 f rest (by simp [lsize] at hfuel; omega)]
    rfl
termination_by h t _ _ => jsize h + lsize t + 1
decreasing_by all_goals (simp [jsize, lsize, osize] <;> omega)

/-- JSON round trip, object-field level. -/
theorem parse_dumpsFields : ∀ (k : String) (v : Json) (t : JsonObj) (fuel : Nat)
    (rest : List Char), jsize v + osize t + 1 ≤ fuel →
    parseFields fuel ('\"' :: (k.data.flatMap escChar ++
        ('\"' :: (':' :: ' ' :: (dumpsV v ++ (dumpsFields t ++ ('\x7d' :: rest))))))) =
      some (JsonObj.cons k v t, rest)
  | k, v, JsonObj.nil, fuel, rest, hfuel => by
    obtain ⟨f, rfl⟩ : ∃ f, fuel = f + 1 := ⟨fuel - 1, by omega⟩
    rw [parseFields.eq_2, skipWs_not_ws _ _ (by decide)]
    simp only [if_pos (rfl : ('\"' : Char) = '\"')]
    rw [parseStrBody_esc k.data, Option.some_bind]
    simp only [fieldsAfterKey]
    rw [skipWs_not_ws _ _ (by decide)]
    simp only [if_pos (rfl : (':' : Char) = ':')]
    rw [parseValue_sp,
      parse_dumpsV v f (dumpsFields JsonObj.nil ++ ('\x7d' :: rest))
        (by have := jsize_pos v; omega) (fields_notDigitStart JsonObj.nil rest),
      Option.some_bind]
    rw [show dumpsFields JsonObj.nil ++ ('\x7d' :: rest) = '\x7d' :: rest from rfl]
    simp only [fieldsAfterVal]
    rw [skipWs_not_ws _ _ (by decide)]
    rfl
  | k, v, JsonObj.cons k2 v2 t2, fuel, rest, hfuel => by
    obtain ⟨f, rfl⟩ : ∃ f, fuel = f + 1 := ⟨fuel - 1, by omega⟩
    rw [parseFields.eq_2, skipWs_not_ws _ _ (by decide)]
    simp only [if_pos (rfl : ('\"' : Char) = '\"')]
    rw [parseStrBody_esc k.data, Option.some_bind]
    simp only [fieldsAfterKey]
    rw [skipWs_not_ws _ _ (by decide)]
    simp only [if_pos (rfl : (':' : Char) = ':')]
    rw [parseValue_sp,
      parse_dumpsV v f (dumpsFields (JsonObj.cons k2 v2 t2) ++ ('\x7d' :: rest))
        (by have := jsize_pos v; simp [osize] at hfuel; omega)
        (fields_notDigitStart (JsonObj.cons k2 v2 t2) rest),
      Option.some_bind]
    rw [show dumpsFields (JsonObj.cons k2 v2 t2) ++ ('\x7d' :: rest) =
        ',' :: ' ' :: ('\"' :: (k2.data.flatMap escChar ++
          ('\"' :: (':' :: ' ' :: (dumpsV v2 ++ (dumpsFields t2 ++ ('\x7d' :: rest))))))) from
        by simp [dumpsFields, escString, List.append_assoc]]
    simp only [fieldsAfterVal]
    rw [skipWs_not_ws _ _ (by decide)]
    simp only [if_neg (show ¬ (',' : Char) = '\x7d' by decide),
      if_pos (rfl : (',' : Char) = ',')]
    rw [parseFields_sp,
      parse_dumpsFields k2 v2 t2 f rest (by simp [osize] at hfuel; omega)]
    rfl
termination_by _ v t _ _ => jsize v + osize t + 1
decreasing_by all_goals (simp [jsize, lsize, osize] <;> omega)

end

/-- Full JSON round trip: `json.loads(json.dumps(v, ensure_ascii=False))`
returns the value unchanged. -/
theorem parse_dumps (j : Json) : Json.parse (Json.dumps j) = some j := by
  have hlen : jsize j ≤ (dumpsV j).length + 1 := by
    have := jsize_le_dumps j
    omega
  have h := parse_dumpsV j ((dumpsV j).length + 1) [] hlen trivial
  rw [List.append_nil] at h
  show (match parseValue ((dumpsV j).length + 1) (dumpsV j) with
    | some (j, rest) => if skipWs rest = [] then some j else none
    | none => none) = some j
  rw [h]
  rfl

/-! ## Row and pair-processing lemmas -/

/-- The three columns written for one `(model, run)` pair. -/
def pairCols (p : String × Nat) : List String :=
  [pairPfx p ++ "_response", pairPfx p ++ "_score", pairPfx p ++ "_score_summary"]

/-- All columns written by a list of pairs. -/
def writtenKeys (pairs : List (String × Nat)) : List String :=
  pairs.flatMap pairCols

/-- The base columns of every row. -/
def baseCols : List String := ["task_id", "domain", "status"]

theorem rget_rset_self (row : Row) (k : String) (v : Cell) :
    rget (rset row k v) k = some v := by
  induction row with
  | nil => simp [rset, rget]
  | cons hd tl ih =>
    by_cases h : hd.1 = k
    · simp [rset, rget, h]
    · simp [rset, rget, h, ih]

theorem rget_rset_ne (row : Row) (k k' : String) (v : Cell) (h : ¬ k' = k) :
    rget (rset row k' v) k = rget row k := by
  induction row with
  | nil => simp [rset, rget, h]
  | cons hd tl ih =>
    by_cases h2 : hd.1 = k'
    · simp [rset, rget, h2, h]
    · simp only [rset, h2, if_false]
      by_cases h3 : hd.1 = k
      · simp [rget, h3]
      · simp [rget, h3, ih]

theorem append_ne_of_ne (s a b : String) (h : ¬ a = b) : ¬ s ++ a = s ++ b := by
  intro heq
  apply h
  apply String.ext
  have hd : s.data ++ a.data = s.data ++ b.data := by
    have := congrArg String.data heq
    simpa using this
  exact List.append_cancel_left hd

theorem processPairs_append (penv : Nat → PairEnv) (rub : String)
    (xs : List (String × Nat)) : ∀ (ys : List (String × Nat)) (i : Nat) (row : Row),
    processPairs penv rub (xs ++ ys) i row =
      processPairs penv rub ys (i + xs.length) (processPairs penv rub xs i row) := by
  induction xs with
  | nil => intro ys i row; simp [processPairs]
  | cons p xs ih =>
    intro ys i row
    simp only [List.cons_append, processPairs, List.append_eq]
    rw [ih]
    have hlen : i + 1 + xs.length = i + (p :: xs).length := by
      simp only [List.length_cons]
      omega
    rw [hlen]

theorem rget_processOne_ne (pe : PairEnv) (rub : String) (p : String × Nat) (row : Row)
    (k : String) (h : ¬ k ∈ pairCols p) :
    rget (processOne pe rub p row) k = rget row k := by
  have h1' : ¬ (pairPfx p ++ "_response") = k := fun he => h (by rw [← he]; simp [pairCols])
  have h2' : ¬ (pairPfx p ++ "_score") = k := fun he => h (by rw [← he]; simp [pairCols])
  have h3' : ¬ (pairPfx p ++ "_score_summary") = k := fun he => h (by rw [← he]; simp [pairCols])
  simp only [processOne]
  split
  · rw [rget_rset_ne _ _ _ _ h3', rget_rset_ne _ _ _ _ h2', rget_rset_ne _ _ _ _ h1']
  · split
    · split
      · rw [rget_rset_ne _ _ _ _ h1']
      · rw [rget_rset_ne _ _ _ _ h3', rget_rset_ne _ _ _ _ h2', rget_rset_ne _ _ _ _ h1']
    · rw [rget_rset_ne _ _ _ _ h3', rget_rset_ne _ _ _ _ h2', rget_rset_ne _ _ _ _ h1']

theorem rget_processPairs_ne (penv : Nat → PairEnv) (rub : String)
    (pairs : List (String × Nat)) : ∀ (i : Nat) (row : Row) (k : String),
    ¬ k ∈ writtenKeys pairs →
    rget (processPairs penv rub pairs i row) k = rget row k := by
  induction pairs with
  | nil => intro i row k _; rfl
  | cons p pairs ih =>
    intro i row k h
    simp only [writtenKeys, List.flatMap_cons, List.mem_append, not_or] at h
    simp only [processPairs]
    rw [ih _ _ _ (by simpa [writtenKeys] using h.2), rget_processOne_ne _ _ _ _ _ h.1]

theorem pfx_response_ne_score (p : String × Nat) :
    ¬ pairPfx p ++ "_response" = pairPfx p ++ "_score" :=
  append_ne_of_ne _ _ _ (by decide)

theorem pfx_response_ne_summary (p : String × Nat) :
    ¬ pairPfx p ++ "_response" = pairPfx p ++ "_score_summary" :=
  append_ne_of_ne _ _ _ (by decide)

theorem pfx_score_ne_summary (p : String × Nat) :
    ¬ pairPfx p ++ "_score" = pairPfx p ++ "_score_summary" :=
  append_ne_of_ne _ _ _ (by decide)

/-- The response column is always written, with the generation
adapter's (possibly empty) response text. -/
theorem processOne_response (pe : PairEnv) (rub : String) (p : String × Nat) (row : Row) :
    rget (processOne pe rub p row) (pairPfx p ++ "_response") =
      some (.str (run_generation pe.gen).response) := by
  simp only [processOne]
  split
  · rw [rget_rset_ne _ _ _ _ (fun h => pfx_response_ne_summary p h.symm),
      rget_rset_ne _ _ _ _ (fun h => pfx_response_ne_score p h.symm), rget_rset_self]
  · split
    · split
      · rw [rget_rset_self]
      · rw [rget_rset_ne _ _ _ _ (fun h => pfx_response_ne_summary p h.symm),
          rget_rset_ne _ _ _ _ (fun h => pfx_response_ne_score p h.symm), rget_rset_self]
    · rw [rget_rset_ne _ _ _ _ (fun h => pfx_response_ne_summary p h.symm),
        rget_rset_ne _ _ _ _ (fun h => pfx_response_ne_score p h.symm), rget_rset_self]

/-- Generation failure branch: score 0 and the truncated failure
summary. -/
theorem processOne_genfail (pe : PairEnv) (rub : String) (p : String × Nat) (row : Row)
    (h : (run_generation pe.gen).success = false) :
    rget (processOne pe rub p row) (pairPfx p ++ "_score") = some (.int 0) ∧
    rget (processOne pe rub p row) (pairPfx p ++ "_score_summary") =
      some (.str ("Generation failed: " ++ (run_generation pe.gen).error.take 100)) := by
  simp only [processOne, if_pos h]
  constructor
  · rw [rget_rset_ne _ _ _ _ (fun he => pfx_score_ne_summary p he.symm), rget_rset_self]
  · rw [rget_rset_self]

/-- Grading-error branch: only the response column is written. -/
theorem processOne_gradeerr (pe : PairEnv) (rub : String) (p : String × Nat) (row : Row)
    (hsucc : ¬ (run_generation pe.gen).success = false)
    (hrub : rub ≠ "") (hresp : (run_generation pe.gen).response ≠ "")
    (e : String) (herr : run_grading (run_generation pe.gen).response rub pe.grade = .error e) :
    processOne pe rub p row =
      rset row (pairPfx p ++ "_response") (.str (run_generation pe.gen).response) := by
  simp only [processOne, if_neg hsucc, if_pos (And.intro hrub hresp), herr]

/-- No-rubric-or-empty-response branch: score 0 and the fixed summary. -/
theorem processOne_norubric (pe : PairEnv) (rub : String) (p : String × Nat) (row : Row)
    (hsucc : ¬ (run_generation pe.gen).success = false)
    (h : ¬ (rub ≠ "" ∧ (run_generation pe.gen).response ≠ "")) :
    rget (processOne pe rub p row) (pairPfx p ++ "_score") = some (.int 0) ∧
    rget (processOne pe rub p row) (pairPfx p ++ "_score_summary") =
      some (.str "No rubric or empty response") := by
  simp only [processOne, if_neg hsucc, if_neg h]
  constructor
  · rw [rget_rset_ne _ _ _ _ (fun he => pfx_score_ne_summary p he.symm), rget_rset_self]
  · rw [rget_rset_self]

/-! ## Rubric injection lemmas -/

theorem olookup_oset_self : ∀ (o : JsonObj) (k : String) (v : Json),
    olookup (oset o k v) k = some v
  | .nil, k, v => by simp [oset, olookup]
  | .cons k' v' t, k, v => by
    by_cases h : k' = k
    · simp [oset, olookup, h]
    · simp [oset, olookup, h, olookup_oset_self t k v]

theorem olookup_oset_ne : ∀ (o : JsonObj) (k k' : String) (v : Json), ¬ k = k' →
    olookup (oset o k v) k' = olookup o k'
  | .nil, k, k', v, h => by simp [oset, olookup, h]
  | .cons k2 v2 t, k, k', v, h => by
    by_cases h2 : k2 = k
    · simp only [oset, h2, if_pos]
      simp [olookup, h]
    · simp only [oset, h2, if_false]
      by_cases h3 : k2 = k'
      · simp [olookup, h3]
      · simp [olookup, h3, olookup_oset_ne t k k' v h]

theorem okeys_oset_of_mem : ∀ (o : JsonObj) (k : String) (v u : Json),
    olookup o k = some u → okeys (oset o k v) = okeys o
  | .nil, k, v, u, h => by simp [olookup] at h
  | .cons k' v' t, k, v, u, h => by
    by_cases h2 : k' = k
    · simp [oset, okeys, h2]
    · simp only [olookup, h2, if_false] at h
      simp [oset, okeys, h2, okeys_oset_of_mem t k v u h]

/-- Whether a per-criterion result actually applies to the rubric. -/
def criterionHits (rub : JsonObj) (cr : CriterionResult) : Prop :=
  ∃ key inner, cr.criterion_key = some key ∧ olookup rub key = some (Json.obj inner)

theorem apply_criterion_of_hit (rub : JsonObj) (cr : CriterionResult) (key : String)
    (inner : JsonObj) (hk : cr.criterion_key = some key)
    (hv : olookup rub key = some (Json.obj inner)) :
    apply_criterion rub cr = oset rub key
      (Json.obj (oset (oset inner "autorating" (Json.bool (pyBool cr.autorating)))
        "reason" (Json.str (cr.reason.getD "")))) := by
  simp only [apply_criterion, hk, hv]

theorem apply_criterion_of_miss (rub : JsonObj) (cr : CriterionResult)
    (h : ¬ criterionHits rub cr) : apply_criterion rub cr = rub := by
  cases hk : cr.criterion_key with
  | none => simp [apply_criterion, hk]
  | some key =>
    cases hv : olookup rub key with
    | none => simp [apply_criterion, hk, hv]
    | some u =>
      cases u with
      | obj inner => exact absurd ⟨key, inner, hk, hv⟩ h
      | null => simp [apply_criterion, hk, hv]
      | bool b => simp [apply_criterion, hk, hv]
      | int n => simp [apply_criterion, hk, hv]
      | str s => simp [apply_criterion, hk, hv]
      | arr l => simp [apply_criterion, hk, hv]

theorem okeys_apply_criterion (rub : JsonObj) (cr : CriterionResult) :
    okeys (apply_criterion rub cr) = okeys rub := by
  by_cases h : criterionHits rub cr
  · obtain ⟨key, inner, hk, hv⟩ := h
    rw [apply_criterion_of_hit rub cr key inner hk hv]
    exact okeys_oset_of_mem _ _ _ _ hv
  · rw [apply_criterion_of_miss rub cr h]

theorem okeys_foldl_apply (results : List CriterionResult) : ∀ rub : JsonObj,
    okeys (results.foldl apply_criterion rub) = okeys rub := by
  induction results with
  | nil => intro rub; rfl
  | cons cr results ih =>
    intro rub
    simp only [List.foldl_cons]
    rw [ih, okeys_apply_criterion]

/-! ## Column-distinctness bookkeeping -/

theorem writtenKeys_split (b a : List (String × Nat)) (p : String × Nat) :
    writtenKeys (b ++ p :: a) = writtenKeys b ++ (pairCols p ++ writtenKeys a) := by
  simp [writtenKeys, List.flatMap_append, List.flatMap_cons]

/-- Distinctness facts for the columns of one pair inside a split pair
list, extracted from the global no-duplicate-columns hypothesis. -/
theorem col_facts (pairs b a : List (String × Nat)) (p : String × Nat)
    (hs : pairs = b ++ p :: a)
    (hnd : (baseCols ++ writtenKeys pairs).Nodup)
    (col : String) (hcol : col ∈ pairCols p) :
    ¬ col ∈ writtenKeys b ∧ ¬ col ∈ writtenKeys a ∧
      ¬ "task_id" = col ∧ ¬ "domain" = col ∧ ¬ "status" = col := by
  subst hs
  rw [writtenKeys_split] at hnd
  rw [List.nodup_append] at hnd
  obtain ⟨hbase, hrest, hdisj⟩ := hnd
  rw [List.nodup_append] at hrest
  obtain ⟨hwb, hca, hdisj2⟩ := hrest
  rw [List.nodup_append] at hca
  obtain ⟨hc, hwa, hdisj3⟩ := hca
  have hin : col ∈ writtenKeys b ++ (pairCols p ++ writtenKeys a) := by
    simp [hcol]
  refine ⟨?_, ?_, ?_, ?_, ?_⟩
  · exact fun hmem => hdisj2 hmem (by simp [hcol])
  · exact fun hmem => hdisj3 hcol hmem
  · intro he
    exact hdisj (show "task_id" ∈ baseCols by simp [baseCols]) (he ▸ hin)
  · intro he
    exact hdisj (show "domain" ∈ baseCols by simp [baseCols]) (he ▸ hin)
  · intro he
    exact hdisj (show "status" ∈ baseCols by simp [baseCols]) (he ▸ hin)

theorem rget_initRow_none (task : TaskData) (col : String)
    (h1 : ¬ "task_id" = col) (h2 : ¬ "domain" = col) (h3 : ¬ "status" = col) :
    rget (initRow task) col = none := by
  simp [initRow, rget, h1, h2, h3]

/-- Inside `process_task` (attachment resolution succeeded), reading a
column of pair `p` reduces to reading it right after `p`'s own loop
iteration. -/
theorem rget_process_task_pair (models : List ModelCfg) (runs : Nat) (task : TaskData)
    (env : TaskEnv) (atts : List Attachment) (hatt : env.attach = .ok atts)
    (b a : List (String × Nat)) (p : String × Nat)
    (hs : pairsOf models runs = b ++ p :: a)
    (hnd : (baseCols ++ writtenKeys (pairsOf models runs)).Nodup)
    (col : String) (hcol : col ∈ pairCols p) :
    rget (process_task models runs task env) col =
      rget (processOne (env.penv b.length) (pyStrip (task.rubric_json.getD "")) p
        (processPairs env.penv (pyStrip (task.rubric_json.getD "")) b 0 (initRow task))) col := by
  obtain ⟨hnb, hna, h1, h2, h3⟩ := col_facts _ b a p hs hnd col hcol
  simp only [process_task, hatt]
  rw [rget_rset_ne _ _ _ _ (fun he => h3 he)]
  rw [hs, processPairs_append]
  simp only [processPairs]
  rw [rget_processPairs_ne _ _ _ _ _ _ hna]
  simp

/-- The whole-row response guarantee: every pair's `_response` column
holds that pair's generation outcome, no matter what happened in any
other pair. -/
theorem rget_process_task_response (models : List ModelCfg) (runs : Nat) (task : TaskData)
    (env : TaskEnv) (atts : List Attachment) (hatt : env.attach = .ok atts)
    (b a : List (String × Nat)) (p : String × Nat)
    (hs : pairsOf models runs = b ++ p :: a)
    (hnd : (baseCols ++ writtenKeys (pairsOf models runs)).Nodup) :
    rget (process_task models runs task env) (pairPfx p ++ "_response") =
      some (.str (run_generation (env.penv b.length).gen).response) := by
  rw [rget_process_task_pair models runs task env atts hatt b a p hs hnd _
    (by simp [pairCols])]
  exact processOne_response _ _ _ _

/-- The task status is `completed` whenever attachment resolution
succeeded. -/
theorem process_task_status_completed (models : List ModelCfg) (runs : Nat)
    (task : TaskData) (env : TaskEnv) (atts : List Attachment)
    (hatt : env.attach = .ok atts) :
    rget (process_task models runs task env) "status" = some (.str "completed") := by
  simp only [process_task, hatt]
  exact rget_rset_self _ _ _

/-! ## Claim theorems -/

/-- Fresh runs process every task. -/
theorem main_run_fresh (models : List ModelCfg) (runs : Nat) (prev : List PrevRow) :
    ∀ tasks : List (TaskData × TaskEnv),
    main_run models runs false prev tasks =
      tasks.map (fun te => process_task models runs te.1 te.2) := by
  intro tasks
  induction tasks with
  | nil => rfl
  | cons te ts ih =>
    simp only [main_run, Bool.false_eq_true, false_and, if_false] at ih ⊢
    rw [List.filterMap_cons]
    simp only [ih, List.map_cons]

/-- C1: on a fresh (non-resumed) run, exactly one output row is
appended per input task, in order; and any exception raised while
assembling a task (modelled at the attachment-resolution step, the
only raising step outside the per-pair isolation) still yields a row,
with status `error: ` followed by the first 100 characters of the
message. -/
theorem C1_row_always_emitted (models : List ModelCfg) (runs : Nat) (prev : List PrevRow)
    (tasks : List (TaskData × TaskEnv)) :
    main_run models runs false prev tasks =
      tasks.map (fun te => process_task models runs te.1 te.2) ∧
    ∀ (task : TaskData) (env : TaskEnv) (msg : String), env.attach = Except.error msg →
      process_task models runs task env =
        [("task_id", Cell.str (task.task_id.getD "unknown")),
         ("domain", Cell.str (task.domain.getD "")),
         ("status", Cell.str ("error: " ++ msg.take 100))] := by
  constructor
  · exact main_run_fresh models runs prev tasks
  · intro task env msg hatt
    simp only [process_task, hatt]
    rfl

set_option maxRecDepth 100000 in
/-- Witness for C1 at a concrete task whose attachment resolution
raises. -/
theorem C1_witness :
    process_task MODELS NUMBER_OF_RUNS
      ⟨some "T1", some "math", some "p", none, none⟩
      ⟨Except.error "disk on fire", fun _ =>
        ⟨GenCollab.returns [], GradCollab.returns ⟨[], 0⟩⟩⟩ =
      [("task_id", Cell.str "T1"), ("domain", Cell.str "math"),
       ("status", Cell.str "error: disk on fire")] := by
  have h := (C1_row_always_emitted MODELS NUMBER_OF_RUNS [] []).2
    ⟨some "T1", some "math", some "p", none, none⟩
    ⟨Except.error "disk on fire", fun _ =>
      ⟨GenCollab.returns [], GradCollab.returns ⟨[], 0⟩⟩⟩
    "disk on fire" rfl
  rw [h]
  rfl

/-- C2: a generation failure on one `(model, run)` pair records score 0
and the summary `Generation failed: ` plus the first 100 characters of
the error, and every pair of the task — in particular every subsequent
one — still gets its own generation outcome recorded. -/
theorem C2_generation_failure (models : List ModelCfg) (runs : Nat) (task : TaskData)
    (env : TaskEnv) (atts : List Attachment) (hatt : env.attach = Except.ok atts)
    (b a : List (String × Nat)) (p : String × Nat)
    (hs : pairsOf models runs = b ++ p :: a)
    (hnd : (baseCols ++ writtenKeys (pairsOf models runs)).Nodup)
    (hfail : (run_generation (env.penv b.length).gen).success = false) :
    rget (process_task models runs task env) (pairPfx p ++ "_score") = some (Cell.int 0) ∧
    rget (process_task models runs task env) (pairPfx p ++ "_score_summary") =
      some (Cell.str ("Generation failed: " ++
        (run_generation (env.penv b.length).gen).error.take 100)) ∧
    ∀ (b2 a2 : List (String × Nat)) (q : String × Nat),
      pairsOf models runs = b2 ++ q :: a2 →
      rget (process_task models runs task env) (pairPfx q ++ "_response") =
        some (Cell.str (run_generation (env.penv b2.length).gen).response) := by
  refine ⟨?_, ?_, ?_⟩
  · rw [rget_process_task_pair models runs task env atts hatt b a p hs hnd _
      (by simp [pairCols])]
    exact (processOne_genfail _ _ _ _ hfail).1
  · rw [rget_process_task_pair models runs task env atts hatt b a p hs hnd _
      (by simp [pairCols])]
    exact (processOne_genfail _ _ _ _ hfail).2
  · intro b2 a2 q hs2
    exact rget_process_task_response models runs task env atts hatt b2 a2 q hs2 hnd

set_option maxRecDepth 100000 in
/-- Witness for C2: one task, generation fails on the first pair. -/
theorem C2_witness :
    rget (process_task MODELS NUMBER_OF_RUNS ⟨some "T3", some "d", some "p", none, none⟩
        ⟨Except.ok [], fun _ => ⟨GenCollab.raises "network down", GradCollab.returns ⟨[], 0⟩⟩⟩)
      "claude_opus_4_5_20251101_1_score" = some (Cell.int 0) ∧
    rget (process_task MODELS NUMBER_OF_RUNS ⟨some "T3", some "d", some "p", none, none⟩
        ⟨Except.ok [], fun _ => ⟨GenCollab.raises "network down", GradCollab.returns ⟨[], 0⟩⟩⟩)
      "claude_opus_4_5_20251101_1_score_summary" =
      some (Cell.str "Generation failed: network down") := by
  have h := C2_generation_failure MODELS NUMBER_OF_RUNS
    ⟨some "T3", some "d", some "p", none, none⟩
    ⟨Except.ok [], fun _ => ⟨GenCollab.raises "network down", GradCollab.returns ⟨[], 0⟩⟩⟩
    [] rfl [] [("gemini-3-pro-preview", 1)] ("claude-opus-4-5-20251101", 1)
    (by decide) (by decide) rfl
  exact ⟨h.1.trans rfl, h.2.1.trans rfl⟩

/-- C3: when generation succeeded, a rubric is present and the response
is non-blank, a grading error leaves the pair's score and score-summary
columns entirely absent, keeps the pair's response, does not stop later
pairs, and the task still completes. -/
theorem C3_grading_error_absent_fields (models : List ModelCfg) (runs : Nat)
    (task : TaskData) (env : TaskEnv) (atts : List Attachment)
    (hatt : env.attach = Except.ok atts)
    (b a : List (String × Nat)) (p : String × Nat)
    (hs : pairsOf models runs = b ++ p :: a)
    (hnd : (baseCols ++ writtenKeys (pairsOf models runs)).Nodup)
    (hsucc : (run_generation (env.penv b.length).gen).success = true)
    (hrub : pyStrip (task.rubric_json.getD "") ≠ "")
    (hresp : (run_generation (env.penv b.length).gen).response ≠ "")
    (e : String)
    (herr : run_grading (run_generation (env.penv b.length).gen).response
      (pyStrip (task.rubric_json.getD "")) (env.penv b.length).grade = Except.error e) :
    rget (process_task models runs task env) (pairPfx p ++ "_score") = none ∧
    rget (process_task models runs task env) (pairPfx p ++ "_score_summary") = none ∧
    rget (process_task models runs task env) (pairPfx p ++ "_response") =
      some (Cell.str (run_generation (env.penv b.length).gen).response) ∧
    (∀ (b2 a2 : List (String × Nat)) (q : String × Nat),
      pairsOf models runs = b2 ++ q :: a2 →
      rget (process_task models runs task env) (pairPfx q ++ "_response") =
        some (Cell.str (run_generation (env.penv b2.length).gen).response)) ∧
    rget (process_task models runs task env) "status" = some (Cell.str "completed") := by
  have hsucc' : ¬ (run_generation (env.penv b.length).gen).success = false := by
    rw [hsucc]; simp
  have hone := processOne_gradeerr (env.penv b.length) (pyStrip (task.rubric_json.getD ""))
    p (processPairs env.penv (pyStrip (task.rubric_json.getD "")) b 0 (initRow task))
    hsucc' hrub hresp e herr
  refine ⟨?_, ?_, ?_, ?_, ?_⟩
  · obtain ⟨hnb, _, h1, h2, h3⟩ := col_facts _ b a p hs hnd _
      (show pairPfx p ++ "_score" ∈ pairCols p by simp [pairCols])
    rw [rget_process_task_pair models runs task env atts hatt b a p hs hnd _
      (by simp [pairCols]), hone,
      rget_rset_ne _ _ _ _ (pfx_response_ne_score p),
      rget_processPairs_ne _ _ _ _ _ _ hnb,
      rget_initRow_none task _ h1 h2 h3]
  · obtain ⟨hnb, _, h1, h2, h3⟩ := col_facts _ b a p hs hnd _
      (show pairPfx p ++ "_score_summary" ∈ pairCols p by simp [pairCols])
    rw [rget_process_task_pair models runs task env atts hatt b a p hs hnd _
      (by simp [pairCols]), hone,
      rget_rset_ne _ _ _ _ (pfx_response_ne_summary p),
      rget_processPairs_ne _ _ _ _ _ _ hnb,
      rget_initRow_none task _ h1 h2 h3]
  · exact rget_process_task_response models runs task env atts hatt b a p hs hnd
  · intro b2 a2 q hs2
    exact rget_process_task_response models runs task env atts hatt b2 a2 q hs2 hnd
  · exact process_task_status_completed models runs task env atts hatt

set_option maxRecDepth 100000 in
/-- Witness for C3: generation succeeds but the rubric payload is the
literal text `not json`, so grading raises; the fields stay absent and
the task completes. -/
theorem C3_witness :
    rget (process_task MODELS NUMBER_OF_RUNS
        ⟨some "T4", some "d", some "p", none, some "not json"⟩
        ⟨Except.ok [], fun _ =>
          ⟨GenCollab.returns [⟨true, some "ans", none⟩], GradCollab.returns ⟨[], 0⟩⟩⟩)
      "claude_opus_4_5_20251101_1_score" = none ∧
    rget (process_task MODELS NUMBER_OF_RUNS
        ⟨some "T4", some "d", some "p", none, some "not json"⟩
        ⟨Except.ok [], fun _ =>
          ⟨GenCollab.returns [⟨true, some "ans", none⟩], GradCollab.returns ⟨[], 0⟩⟩⟩)
      "status" = some (Cell.str "completed") := by
  have h := C3_grading_error_absent_fields MODELS NUMBER_OF_RUNS
    ⟨some "T4", some "d", some "p", none, some "not json"⟩
    ⟨Except.ok [], fun _ =>
      ⟨GenCollab.returns [⟨true, some "ans", none⟩], GradCollab.returns ⟨[], 0⟩⟩⟩
    [] rfl [] [("gemini-3-pro-preview", 1)] ("claude-opus-4-5-20251101", 1)
    (by decide) (by decide) rfl (by decide) (by decide)
    "Failed to parse rubric JSON" rfl
  exact ⟨h.1.trans rfl, h.2.2.2.2.trans rfl⟩

set_option maxRecDepth 100000 in
/-- C8 counterexample: the claim's `response is blank` case fails on
the code.  Line 261 tests `if rubric_json and response:` — truthiness,
i.e. emptiness — so a whitespace-only (blank but non-empty) response
with a rubric present is sent to grading and gets a real score and an
enriched-rubric summary, not score 0 with `No rubric or empty
response`. -/
theorem C8_counterexample :
    pyStrip " " = "" ∧
    rget (process_task MODELS NUMBER_OF_RUNS
        ⟨some "T8", some "d", some "p", none,
          some "\x7b\"c1\": \x7b\"description\": \"x\"\x7d\x7d"⟩
        ⟨Except.ok [], fun _ =>
          ⟨GenCollab.returns [⟨true, some " ", none⟩],
           GradCollab.returns ⟨[⟨some "c1", some (Json.bool true), some "ok"⟩], 100⟩⟩⟩)
      "claude_opus_4_5_20251101_1_score" = some (Cell.int 100) ∧
    rget (process_task MODELS NUMBER_OF_RUNS
        ⟨some "T8", some "d", some "p", none,
          some "\x7b\"c1\": \x7b\"description\": \"x\"\x7d\x7d"⟩
        ⟨Except.ok [], fun _ =>
          ⟨GenCollab.returns [⟨true, some " ", none⟩],
           GradCollab.returns ⟨[⟨some "c1", some (Json.bool true), some "ok"⟩], 100⟩⟩⟩)
      "claude_opus_4_5_20251101_1_score_summary" =
      some (Cell.str
        "\x7b\"c1\": \x7b\"description\": \"x\", \"autorating\": true, \"reason\": \"ok\"\x7d\x7d") ∧
    ¬ some (Cell.int 100) = some (Cell.int 0) ∧
    ¬ some (Cell.str
        "\x7b\"c1\": \x7b\"description\": \"x\", \"autorating\": true, \"reason\": \"ok\"\x7d\x7d") =
      some (Cell.str "No rubric or empty response") := by
  exact ⟨rfl, rfl, rfl, by decide, by decide⟩

/-- C8 (amended): generation success with no rubric payload (after
stripping) or an *empty* response records score 0 and the exact
summary `No rubric or empty response`.  The original claim's "blank"
is narrowed to "empty": the code tests truthiness, and a
whitespace-only response is graded instead (see the counterexample
above). -/
theorem C8_no_rubric_or_empty (models : List ModelCfg) (runs : Nat) (task : TaskData)
    (env : TaskEnv) (atts : List Attachment) (hatt : env.attach = Except.ok atts)
    (b a : List (String × Nat)) (p : String × Nat)
    (hs : pairsOf models runs = b ++ p :: a)
    (hnd : (baseCols ++ writtenKeys (pairsOf models runs)).Nodup)
    (hsucc : (run_generation (env.penv b.length).gen).success = true)
    (hcond : pyStrip (task.rubric_json.getD "") = "" ∨
      (run_generation (env.penv b.length).gen).response = "") :
    rget (process_task models runs task env) (pairPfx p ++ "_score") = some (Cell.int 0) ∧
    rget (process_task models runs task env) (pairPfx p ++ "_score_summary") =
      some (Cell.str "No rubric or empty response") := by
  have hsucc' : ¬ (run_generation (env.penv b.length).gen).success = false := by
    rw [hsucc]; simp
  have hcond' : ¬ (pyStrip (task.rubric_json.getD "") ≠ "" ∧
      (run_generation (env.penv b.length).gen).response ≠ "") := by
    tauto
  constructor
  · rw [rget_process_task_pair models runs task env atts hatt b a p hs hnd _
      (by simp [pairCols])]
    exact (processOne_norubric _ _ _ _ hsucc' hcond').1
  · rw [rget_process_task_pair models runs task env atts hatt b a p hs hnd _
      (by simp [pairCols])]
    exact (processOne_norubric _ _ _ _ hsucc' hcond').2

set_option maxRecDepth 100000 in
/-- Witness for C8: no rubric, generation succeeds. -/
theorem C8_witness :
    rget (process_task MODELS NUMBER_OF_RUNS ⟨some "T2", some "d", some "p", none, none⟩
        ⟨Except.ok [], fun _ =>
          ⟨GenCollab.returns [⟨true, some "ans", none⟩], GradCollab.returns ⟨[], 0⟩⟩⟩)
      "claude_opus_4_5_20251101_1_score" = some (Cell.int 0) ∧
    rget (process_task MODELS NUMBER_OF_RUNS ⟨some "T2", some "d", some "p", none, none⟩
        ⟨Except.ok [], fun _ =>
          ⟨GenCollab.returns [⟨true, some "ans", none⟩], GradCollab.returns ⟨[], 0⟩⟩⟩)
      "claude_opus_4_5_20251101_1_score_summary" =
      some (Cell.str "No rubric or empty response") := by
  have h := C8_no_rubric_or_empty MODELS NUMBER_OF_RUNS
    ⟨some "T2", some "d", some "p", none, none⟩
    ⟨Except.ok [], fun _ =>
      ⟨GenCollab.returns [⟨true, some "ans", none⟩], GradCollab.returns ⟨[], 0⟩⟩⟩
    [] rfl [] [("gemini-3-pro-preview", 1)] ("claude-opus-4-5-20251101", 1)
    (by decide) (by decide) rfl (Or.inl rfl)
  exact ⟨h.1.trans rfl, h.2.trans rfl⟩

/-- C4: the grading injection writes `autorating` (boolean coercion of
the verdict) and `reason` (default empty string) into a criterion if
and only if the returned key exists in the rubric with a structured
value; all other results leave the rubric untouched, and the key set is
preserved across the whole injection pass. -/
theorem C4_criterion_injection (rub : JsonObj) (cr : CriterionResult)
    (results : List CriterionResult) :
    okeys (apply_criterion rub cr) = okeys rub ∧
    (∀ (key : String) (inner : JsonObj), cr.criterion_key = some key →
      olookup rub key = some (Json.obj inner) →
      apply_criterion rub cr = oset rub key
        (Json.obj (oset (oset inner "autorating" (Json.bool (pyBool cr.autorating)))
          "reason" (Json.str (cr.reason.getD ""))))) ∧
    (¬ criterionHits rub cr → apply_criterion rub cr = rub) ∧
    okeys (results.foldl apply_criterion rub) = okeys rub := by
  refine ⟨okeys_apply_criterion rub cr, ?_, apply_criterion_of_miss rub cr,
    okeys_foldl_apply results rub⟩
  intro key inner hk hv
  exact apply_criterion_of_hit rub cr key inner hk hv

/-- Witness for C4: a hit on key `c1` writes the two fields; the key
set is unchanged. -/
theorem C4_witness :
    apply_criterion (JsonObj.cons "c1" (Json.obj JsonObj.nil) JsonObj.nil)
      ⟨some "c1", some (Json.bool true), some "ok"⟩ =
      JsonObj.cons "c1" (Json.obj (JsonObj.cons "autorating" (Json.bool true)
        (JsonObj.cons "reason" (Json.str "ok") JsonObj.nil))) JsonObj.nil ∧
    okeys (apply_criterion (JsonObj.cons "c1" (Json.obj JsonObj.nil) JsonObj.nil)
      ⟨some "unknown-key", some (Json.bool true), some "ok"⟩) = ["c1"] := by
  constructor
  · exact ((C4_criterion_injection (JsonObj.cons "c1" (Json.obj JsonObj.nil) JsonObj.nil)
      ⟨some "c1", some (Json.bool true), some "ok"⟩ []).2.1 "c1" JsonObj.nil rfl rfl).trans rfl
  · exact ((C4_criterion_injection (JsonObj.cons "c1" (Json.obj JsonObj.nil) JsonObj.nil)
      ⟨some "unknown-key", some (Json.bool true), some "ok"⟩ []).1).trans rfl

/-- C5 counterexample: the decoder accepts `{"a": 1}`, whose single
value is a scalar, not a mapping — so decode does not fail on every
payload that is not a mapping-of-mappings. -/
theorem C5_counterexample :
    parse_rubric "\x7b\"a\": 1\x7d" =
      Except.ok (JsonObj.cons "a" (Json.int 1) JsonObj.nil) ∧
    (Json.int 1).isObj = false := ⟨rfl, rfl⟩

/-- C5 (amended): decode fails exactly when the text is empty, is not
valid JSON, or decodes to a non-mapping; a mapping whose values are
scalars is accepted, and a successful decode returns the full decoded
object (no partial decode). -/
theorem C5_rubric_decode (s : String) :
    ((∃ m, parse_rubric s = Except.ok m) ↔
      ¬ (s = "" ∨ Json.parse s = none ∨
        ∃ j, Json.parse s = some j ∧ j.isObj = false)) ∧
    (∀ m, parse_rubric s = Except.ok m → Json.parse s = some (Json.obj m)) := by
  constructor
  · constructor
    · rintro ⟨m, hm⟩
      by_cases hse : s = ""
      · simp [parse_rubric, hse] at hm
      · cases hp : Json.parse s with
        | none => simp [parse_rubric, hse, hp] at hm
        | some j =>
          push_neg
          refine ⟨hse, by simp [hp], ?_⟩
          intro j' hj'
          injection hj' with hj''
          subst hj''
          cases j with
          | obj entries => simp [Json.isObj]
          | null => simp [parse_rubric, hse, hp] at hm
          | bool b => simp [parse_rubric, hse, hp] at hm
          | int n => simp [parse_rubric, hse, hp] at hm
          | str s2 => simp [parse_rubric, hse, hp] at hm
          | arr l => simp [parse_rubric, hse, hp] at hm
    · intro h
      push_neg at h
      obtain ⟨h1, h2, h3⟩ := h
      cases hp : Json.parse s with
      | none => exact absurd hp h2
      | some j =>
        cases j with
        | obj entries => exact ⟨entries, by simp [parse_rubric, h1, hp]⟩
        | null => exact absurd (show Json.null.isObj = false from rfl) (h3 Json.null hp)
        | bool b => exact absurd (show (Json.bool b).isObj = false from rfl) (h3 (Json.bool b) hp)
        | int n => exact absurd (show (Json.int n).isObj = false from rfl) (h3 (Json.int n) hp)
        | str s2 => exact absurd (show (Json.str s2).isObj = false from rfl) (h3 (Json.str s2) hp)
        | arr l => exact absurd (show (Json.arr l).isObj = false from rfl) (h3 (Json.arr l) hp)
  · intro m hm
    by_cases hse : s = ""
    · simp [parse_rubric, hse] at hm
    · cases hp : Json.parse s with
      | none => simp [parse_rubric, hse, hp] at hm
      | some j =>
        cases j with
        | obj entries =>
          simp only [parse_rubric, hse, if_neg, hp] at hm
          simp_all
        | null => simp [parse_rubric, hse, hp] at hm
        | bool b => simp [parse_rubric, hse, hp] at hm
        | int n => simp [parse_rubric, hse, hp] at hm
        | str s2 => simp [parse_rubric, hse, hp] at hm
        | arr l => simp [parse_rubric, hse, hp] at hm

/-- Witness for C5's amended theorem at a concrete decodable payload. -/
theorem C5_witness :
    Json.parse "\x7b\"a\": 1\x7d" =
      some (Json.obj (JsonObj.cons "a" (Json.int 1) JsonObj.nil)) :=
  (C5_rubric_decode "\x7b\"a\": 1\x7d").2
    (JsonObj.cons "a" (Json.int 1) JsonObj.nil) rfl

/-- C6: with the grading collaborator returning normally, `run_grading`
fails exactly when the response is empty, the rubric fails to decode,
or the collaborator returned zero per-criterion results — each with its
distinct error — and otherwise returns the collaborator's aggregate
percentage verbatim together with the re-encoded enriched rubric. -/
theorem C6_run_grading (response rubric_json : String) (res : GradingResult) :
    ((∃ v, run_grading response rubric_json (GradCollab.returns res) = Except.ok v) ↔
      (response ≠ "" ∧ (∃ m, parse_rubric rubric_json = Except.ok m) ∧
        res.criteria_results ≠ [])) ∧
    (∀ m, response ≠ "" → parse_rubric rubric_json = Except.ok m →
      res.criteria_results ≠ [] →
      run_grading response rubric_json (GradCollab.returns res) =
        Except.ok (res.percentage_score,
          Json.dumps (Json.obj (res.criteria_results.foldl apply_criterion m)))) ∧
    (response = "" → run_grading response rubric_json (GradCollab.returns res) =
      Except.error "Empty model response for grading") ∧
    (∀ e, response ≠ "" → parse_rubric rubric_json = Except.error e →
      run_grading response rubric_json (GradCollab.returns res) = Except.error e) ∧
    (∀ m, response ≠ "" → parse_rubric rubric_json = Except.ok m →
      res.criteria_results = [] →
      run_grading response rubric_json (GradCollab.returns res) =
        Except.error "Grading model returned no criteria results") := by
  refine ⟨⟨?_, ?_⟩, ?_, ?_, ?_, ?_⟩
  · rintro ⟨v, hv⟩
    by_cases hr : response = ""
    · simp [run_grading, hr] at hv
    · cases hp : parse_rubric rubric_json with
      | error e => simp [run_grading, hr, hp] at hv
      | ok m =>
        cases hcr : res.criteria_results with
        | nil => simp [run_grading, hr, hp, hcr] at hv
        | cons c cs => exact ⟨hr, ⟨m, rfl⟩, by simp [hcr]⟩
  · rintro ⟨hr, ⟨m, hp⟩, hcr⟩
    cases hc2 : res.criteria_results with
    | nil => exact absurd hc2 hcr
    | cons c cs =>
      refine ⟨(res.percentage_score,
        Json.dumps (Json.obj (res.criteria_results.foldl apply_criterion m))), ?_⟩
      simp [run_grading, hr, hp, hc2]
  · intro m hr hp hcr
    cases hc2 : res.criteria_results with
    | nil => exact absurd hc2 hcr
    | cons c cs => simp [run_grading, hr, hp, hc2]
  · intro h
    simp [run_grading, h]
  · intro e hr hp
    simp [run_grading, hr, hp]
  · intro m hr hp hcr
    simp [run_grading, hr, hp, hcr]

/-- Witness for C6 at a concrete successful grading call. -/
theorem C6_witness :
    run_grading "ans" "\x7b\"c1\": \x7b\"description\": \"x\"\x7d\x7d"
      (GradCollab.returns ⟨[⟨some "c1", some (Json.bool true), some "ok"⟩], 100⟩) =
      Except.ok (100,
        "\x7b\"c1\": \x7b\"description\": \"x\", \"autorating\": true, \"reason\": \"ok\"\x7d\x7d") := by
  have h := (C6_run_grading "ans" "\x7b\"c1\": \x7b\"description\": \"x\"\x7d\x7d"
    ⟨[⟨some "c1", some (Json.bool true), some "ok"⟩], 100⟩).2.1
    (JsonObj.cons "c1" (Json.obj (JsonObj.cons "description" (Json.str "x") JsonObj.nil))
      JsonObj.nil)
    (by decide) rfl (by simp)
  exact h.trans rfl

/-- C7: for every payload on which the rubric decode succeeds,
decoding the re-encoded mapping returns it unchanged — the exact same
key set and all fields; encode (a pure function) neither reorders nor
drops keys. -/
theorem C7_roundtrip (R : String) (m : JsonObj) (h : parse_rubric R = Except.ok m) :
    parse_rubric (Json.dumps (Json.obj m)) = Except.ok m := by
  have hne : ¬ Json.dumps (Json.obj m) = "" := by
    intro he
    have hd := congrArg String.data he
    simp only [Json.dumps] at hd
    cases m with
    | nil => simp [dumpsV] at hd
    | cons k v t => simp [dumpsV] at hd
  simp only [parse_rubric, if_neg hne]
  rw [parse_dumps (Json.obj m)]

/-- Witness for C7: round-trips the spec's example rubric. -/
theorem C7_witness :
    parse_rubric (Json.dumps (Json.obj (JsonObj.cons "c1"
        (Json.obj (JsonObj.cons "description" (Json.str "x") JsonObj.nil)) JsonObj.nil))) =
      Except.ok (JsonObj.cons "c1"
        (Json.obj (JsonObj.cons "description" (Json.str "x") JsonObj.nil)) JsonObj.nil) :=
  C7_roundtrip "\x7b\"c1\": \x7b\"description\": \"x\"\x7d\x7d"
    (JsonObj.cons "c1" (Json.obj (JsonObj.cons "description" (Json.str "x") JsonObj.nil))
      JsonObj.nil) rfl

/-- Accumulating with repeated `extend` equals append of a `flatMap`. -/
theorem foldl_append_flatMap {α β : Type} (f : α → List β) :
    ∀ (l : List α) (acc : List β),
    l.foldl (fun a x => a ++ f x) acc = acc ++ l.flatMap f
  | [], acc => by simp
  | x :: l, acc => by
    simp only [List.foldl_cons, List.flatMap_cons]
    rw [foldl_append_flatMap f l (acc ++ f x)]
    simp [List.append_assoc]

/-- The header loop in closed form. -/
theorem get_csv_headers_eq (models : List ModelCfg) (runs : Nat) :
    get_csv_headers models runs = baseCols ++ models.flatMap (fun m =>
      (List.range runs).flatMap (fun r =>
        [sanitize m.model_id ++ "_" ++ toString (r + 1) ++ "_response",
         sanitize m.model_id ++ "_" ++ toString (r + 1) ++ "_score",
         sanitize m.model_id ++ "_" ++ toString (r + 1) ++ "_score_summary"])) := by
  unfold get_csv_headers
  have hbody : (fun (headers : List String) (m : ModelCfg) =>
      (List.range runs).foldl
        (fun hs r =>
          hs ++ [sanitize m.model_id ++ "_" ++ toString (r + 1) ++ "_response",
                 sanitize m.model_id ++ "_" ++ toString (r + 1) ++ "_score",
                 sanitize m.model_id ++ "_" ++ toString (r + 1) ++ "_score_summary"])
        headers) =
      (fun (headers : List String) (m : ModelCfg) => headers ++ (List.range runs).flatMap
        (fun r =>
          [sanitize m.model_id ++ "_" ++ toString (r + 1) ++ "_response",
           sanitize m.model_id ++ "_" ++ toString (r + 1) ++ "_score",
           sanitize m.model_id ++ "_" ++ toString (r + 1) ++ "_score_summary"])) := by
    funext headers m
    exact foldl_append_flatMap _ (List.range runs) headers
  rw [hbody, foldl_append_flatMap]
  rfl

/-- C9: with the configured profiles and run count, the header row is
`task_id, domain, status` followed by the
`<model>_<run>_response/_score/_score_summary` triad for each model in
profile-list order and each run ascending from 1; in general the
header has exactly this shape for any configuration; and the sanitized
model identifiers consist only of alphanumerics and underscores. -/
theorem C9_headers :
    get_csv_headers MODELS NUMBER_OF_RUNS =
      ["task_id", "domain", "status",
       "claude_opus_4_5_20251101_1_response", "claude_opus_4_5_20251101_1_score",
       "claude_opus_4_5_20251101_1_score_summary",
       "gemini_3_pro_preview_1_response", "gemini_3_pro_preview_1_score",
       "gemini_3_pro_preview_1_score_summary"] ∧
    (∀ (models : List ModelCfg) (runs : Nat),
      get_csv_headers models runs = baseCols ++ models.flatMap (fun m =>
        (List.range runs).flatMap (fun r =>
          [sanitize m.model_id ++ "_" ++ toString (r + 1) ++ "_response",
           sanitize m.model_id ++ "_" ++ toString (r + 1) ++ "_score",
           sanitize m.model_id ++ "_" ++ toString (r + 1) ++ "_score_summary"]))) ∧
    (MODELS.map (fun m => sanitize m.model_id)).all
      (fun s => s.data.all (fun c => c.isAlphanum || c == '_')) = true := by
  refine ⟨by decide, get_csv_headers_eq, by decide⟩

/-- C10: under resume, a task is skipped exactly when its identifier is
a non-empty `task_id` of some pre-existing row — the row's status is
never consulted, so rows with `error:` or `pending` status are skipped
just like completed ones. -/
theorem C10_resume_skips_by_id (models : List ModelCfg) (runs : Nat)
    (prev : List PrevRow) (tasks : List (TaskData × TaskEnv)) :
    main_run models runs true prev tasks =
      (tasks.filter (fun te =>
        ! decide ((te.1.task_id.getD "unknown") ∈ load_existing_results prev))).map
        (fun te => process_task models runs te.1 te.2) ∧
    (∀ id, id ∈ load_existing_results prev ↔
      ∃ r ∈ prev, r.task_id = some id ∧ id ≠ "") ∧
    (∀ f : PrevRow → String,
      load_existing_results (prev.map (fun r => ⟨r.task_id, f r⟩)) =
        load_existing_results prev) := by
  refine ⟨?_, ?_, ?_⟩
  · induction tasks with
    | nil => rfl
    | cons te ts ih =>
      simp only [main_run] at ih ⊢
      simp only [true_and, if_true] at ih ⊢
      rw [List.filterMap_cons, List.filter_cons]
      by_cases hmem : (te.1.task_id.getD "unknown") ∈ load_existing_results prev
      · simp [hmem, ih]
      · simp [hmem, ih]
  · intro id
    simp only [load_existing_results, List.mem_filterMap]
    constructor
    · rintro ⟨r, hr, hg⟩
      cases hrt : r.task_id with
      | none => simp [hrt] at hg
      | some t =>
        by_cases ht : t = ""
        · simp [hrt, ht] at hg
        · simp only [hrt, ht, if_false] at hg
          injection hg with hg'
          subst hg'
          exact ⟨r, hr, hrt, ht⟩
    · rintro ⟨r, hr, hrt, hne⟩
      exact ⟨r, hr, by simp [hrt, hne]⟩
  · intro f
    simp only [load_existing_results, List.filterMap_map]
    rfl

end Apex
